import Mathlib

/-!
Verification of the hybrid-connection-health booking broker.

This file shallowly embeds the broker subsystem (src/broker/{types,storage,
handler,forwarder,notifier}.rs) in Lean: the sled trees become sorted
association lists whose values are either deserializable records or the
empty-valued scheduling index entries the source writes into the same
namespace; the clock and the jitter draw become explicit parameters; the
HTTP exchange becomes an abstract outcome value.  All functions are written
directly from the Rust source.
-/

namespace Broker

/-- Job state, from `JobState` in types.rs. -/
inductive JobState where
  | queued
  | sending
  | confirmed
  | failed
deriving DecidableEq, Repr

/-- Notification state, from `NotificationState` in types.rs. -/
inductive NotificationState where
  | pending
  | simulatedSent
  | failed
deriving DecidableEq, Repr

/-- JSON values.  Payload blobs are stored in the database as JSON text; we
identify a blob with its parse tree, with `invalid` standing for text that
`serde_json::from_str` rejects.  Indexing a non-object or a missing key
yields `nullv`, as `serde_json::Value` indexing does. -/
inductive Json where
  | nullv
  | boolv (b : Bool)
  | numv (n : Int)
  | strv (s : String)
  | arrv (xs : List Json)
  | objv (kvs : List (String × Json))
  | invalid (raw : String)

/-- `serde_json::Value` field access: object lookup, `Null` otherwise. -/
def Json.get (j : Json) (key : String) : Json :=
  match j with
  | .objv kvs => lookupField kvs key
  | _ => .nullv
where
  lookupField : List (String × Json) → String → Json
    | [], _ => .nullv
    | (k, v) :: rest, key => if k = key then v else lookupField rest key

/-- `Value::as_str`. -/
def Json.asStr : Json → Option String
  | .strv s => some s
  | _ => none

/-- `serde_json::from_str` on a stored blob: fails exactly on invalid text. -/
def Json.fromStr : Json → Option Json
  | .invalid _ => none
  | j => some j

/-- `BookingJob` from types.rs.  `booking_json` and `notify_json` are the
payload blobs (JSON text, represented by parse tree). -/
structure BookingJob where
  correlation_id : String
  booking_json : Json
  notify_json : Json
  state : JobState
  attempts : Nat
  next_attempt_at : Int
  last_error : Option String
  http_status : Option Nat
  central_response_json : Option String
  created_at : Int
  updated_at : Int

/-- `NotificationRecord` from types.rs. -/
structure NotificationRecord where
  correlation_id : String
  email_to : String
  state : NotificationState
  attempts : Nat
  next_attempt_at : Int
  last_error : Option String
  subject : String
  body : String
  simulated_sent_at : Option Int
  created_at : Int
  updated_at : Int

/-- A value stored in a sled tree: either a serialized record (which
deserializes back to itself) or an empty-valued scheduling index entry
(which fails to deserialize as a record). -/
inductive TreeVal (α : Type) where
  | stored (a : α)
  | idx

/-- A sled tree: an association list sorted by key (sled iterates keys in
lexicographic order), at most one entry per key. -/
abbrev Tree (α : Type) := List (String × TreeVal α)

/-- Lexicographic comparison of key characters by codepoint; for UTF-8 keys
this is exactly sled's byte-lexicographic key order. -/
def keyLtChars : List Char → List Char → Bool
  | [], [] => false
  | [], _ :: _ => true
  | _ :: _, [] => false
  | a :: as, b :: bs =>
    if a.val.toNat < b.val.toNat then true
    else if b.val.toNat < a.val.toNat then false
    else keyLtChars as bs

/-- sled's key order. -/
def keyLt (a b : String) : Bool := keyLtChars a.data b.data

/-- Insert (or overwrite) a key, keeping the list key-sorted. -/
def treeInsert {α : Type} : Tree α → String → TreeVal α → Tree α
  | [], k, v => [(k, v)]
  | (k', v') :: rest, k, v =>
    if keyLt k k' then (k, v) :: (k', v') :: rest
    else if k = k' then (k, v) :: rest
    else (k', v') :: treeInsert rest k v

/-- Point lookup (`Tree::get`). -/
def treeGet {α : Type} : Tree α → String → Option (TreeVal α)
  | [], _ => none
  | (k', v) :: rest, k => if k = k' then some v else treeGet rest k

/-- `Tree::contains_key`. -/
def treeContains {α : Type} (t : Tree α) (k : String) : Bool :=
  (treeGet t k).isSome

/-- The two trees of `BrokerStorage`. -/
structure BrokerStore where
  booking_jobs : Tree BookingJob
  notification_outbox : Tree NotificationRecord

def emptyStore : BrokerStore := { booking_jobs := [], notification_outbox := [] }

/-- The scheduling index key written for a queued job:
`format!("queued:{}:{}", job.next_attempt_at, job.correlation_id)`. -/
def jobIndexKey (job : BookingJob) : String :=
  "queued:" ++ toString job.next_attempt_at ++ ":" ++ job.correlation_id

/-- `BrokerStorage::update_job_index`. -/
def update_job_index (t : Tree BookingJob) (job : BookingJob) : Tree BookingJob :=
  if job.state = JobState.queued then treeInsert t (jobIndexKey job) .idx else t

/-- `BrokerStorage::persist_booking_job` (insert-if-absent, then index, then
flush; the durability flush is modelled separately in the two-level store). -/
def persist_booking_job (s : BrokerStore) (job : BookingJob) : BrokerStore :=
  if treeContains s.booking_jobs job.correlation_id then s
  else
    let t := treeInsert s.booking_jobs job.correlation_id (.stored job)
    let t := update_job_index t job
    { s with booking_jobs := t }

/-- `BrokerStorage::get_booking_job`.  An index entry under the requested key
holds empty bytes, which fail to deserialize. -/
def get_booking_job (s : BrokerStore) (correlation_id : String) :
    Except String (Option BookingJob) :=
  match treeGet s.booking_jobs correlation_id with
  | none => .ok none
  | some (.stored j) => .ok (some j)
  | some .idx => .error "Failed to deserialize booking job"

/-- `JobStateUpdate` from storage.rs. -/
structure JobStateUpdate where
  state : JobState
  attempts : Option Nat
  next_attempt_at : Option Int
  last_error : Option String
  http_status : Option Nat
  central_response_json : Option String

/-- The field updates performed by `update_job_state` on the loaded record. -/
def applyUpdate (j : BookingJob) (u : JobStateUpdate) (now : Int) : BookingJob :=
  { j with
    state := u.state
    attempts := u.attempts.getD j.attempts
    next_attempt_at := u.next_attempt_at.getD j.next_attempt_at
    last_error := match u.last_error with
      | some e => some e
      | none => j.last_error
    http_status := match u.http_status with
      | some h => some h
      | none => j.http_status
    central_response_json := match u.central_response_json with
      | some r => some r
      | none => j.central_response_json
    updated_at := now }

/-- `BrokerStorage::update_job_state`: read-modify-write; `remove_job_index`
is a no-op in the source; the new index entry is written only for queued
records. -/
def update_job_state (s : BrokerStore) (correlation_id : String)
    (u : JobStateUpdate) (now : Int) : Except String BrokerStore :=
  match get_booking_job s correlation_id with
  | .error e => .error e
  | .ok none => .error ("Job not found: " ++ correlation_id)
  | .ok (some j) =>
    let j' := applyUpdate j u now
    let t := treeInsert s.booking_jobs correlation_id (.stored j')
    let t := update_job_index t j'
    .ok { s with booking_jobs := t }

/-- The scan loop of `BrokerStorage::get_due_jobs`: iterate the tree in key
order; keys longer than 64 bytes are skipped as index entries; any other
entry is deserialized (an index entry with a short key therefore fails);
due queued jobs are accumulated while fewer than `limit` are collected. -/
def scanDueJobs (now : Int) (limit : Nat) :
    Tree BookingJob → List BookingJob → Except String (List BookingJob)
  | [], acc => .ok acc
  | (k, v) :: rest, acc =>
    if k.length > 64 then scanDueJobs now limit rest acc
    else
      match v with
      | .idx => .error "Failed to deserialize booking job"
      | .stored j =>
        if j.state = JobState.queued ∧ j.next_attempt_at ≤ now ∧ acc.length < limit
        then scanDueJobs now limit rest (acc ++ [j])
        else scanDueJobs now limit rest acc

/-- Stable insertion of `x` into a list sorted by the key `key`: `x` goes
after every element whose key is ≤ its own. -/
def insertStable {α : Type} (key : α → Int) (x : α) : List α → List α
  | [] => [x]
  | y :: ys =>
    if key y ≤ key x then y :: insertStable key x ys else x :: y :: ys

/-- Stable sort by a key (left-fold insertion sort).  A stable sort's output
is determined by the key and the input order, so this is extensionally the
`sort_by_key` (stable) of the source. -/
def sortStable {α : Type} (key : α → Int) (l : List α) : List α :=
  l.foldl (fun acc x => insertStable key x acc) []

/-- The final `sort_by_key(|j| j.next_attempt_at)` (a stable sort). -/
def sortByNextAttempt (l : List BookingJob) : List BookingJob :=
  sortStable (fun j => j.next_attempt_at) l

/-- `BrokerStorage::get_due_jobs`. -/
def get_due_jobs (s : BrokerStore) (now : Int) (limit : Nat) :
    Except String (List BookingJob) :=
  match scanDueJobs now limit s.booking_jobs [] with
  | .error e => .error e
  | .ok jobs => .ok (sortByNextAttempt jobs)

/-- Notification scheduling index key. -/
def notifIndexKey (n : NotificationRecord) : String :=
  "pending:" ++ toString n.next_attempt_at ++ ":" ++ n.correlation_id

/-- `BrokerStorage::update_notification_index`. -/
def update_notification_index (t : Tree NotificationRecord)
    (n : NotificationRecord) : Tree NotificationRecord :=
  if n.state = NotificationState.pending then treeInsert t (notifIndexKey n) .idx else t

/-- `BrokerStorage::persist_notification`. -/
def persist_notification (s : BrokerStore) (n : NotificationRecord) : BrokerStore :=
  if treeContains s.notification_outbox n.correlation_id then s
  else
    let t := treeInsert s.notification_outbox n.correlation_id (.stored n)
    let t := update_notification_index t n
    { s with notification_outbox := t }

/-- `BrokerStorage::get_notification`. -/
def get_notification (s : BrokerStore) (correlation_id : String) :
    Except String (Option NotificationRecord) :=
  match treeGet s.notification_outbox correlation_id with
  | none => .ok none
  | some (.stored n) => .ok (some n)
  | some .idx => .error "Failed to deserialize notification"

/-- `BrokerStorage::update_notification_state`. -/
def update_notification_state (s : BrokerStore) (correlation_id : String)
    (state : NotificationState) (simulated_sent_at : Option Int)
    (subject : Option String) (body : Option String) (now : Int) :
    Except String BrokerStore :=
  match get_notification s correlation_id with
  | .error e => .error e
  | .ok none => .error ("Notification not found: " ++ correlation_id)
  | .ok (some n) =>
    let n' : NotificationRecord :=
      { n with
        state := state
        simulated_sent_at := match simulated_sent_at with
          | some t => some t
          | none => n.simulated_sent_at
        subject := subject.getD n.subject
        body := body.getD n.body
        updated_at := now }
    let t := treeInsert s.notification_outbox correlation_id (.stored n')
    let t := update_notification_index t n'
    .ok { s with notification_outbox := t }

/-- The scan loop of `BrokerStorage::get_due_notifications`. -/
def scanDueNotifs (now : Int) (limit : Nat) :
    Tree NotificationRecord → List NotificationRecord →
    Except String (List NotificationRecord)
  | [], acc => .ok acc
  | (k, v) :: rest, acc =>
    if k.length > 64 then scanDueNotifs now limit rest acc
    else
      match v with
      | .idx => .error "Failed to deserialize notification"
      | .stored n =>
        if n.state = NotificationState.pending ∧ n.next_attempt_at ≤ now ∧
            acc.length < limit
        then scanDueNotifs now limit rest (acc ++ [n])
        else scanDueNotifs now limit rest acc

/-- `BrokerStorage::get_due_notifications`. -/
def get_due_notifications (s : BrokerStore) (now : Int) (limit : Nat) :
    Except String (List NotificationRecord) :=
  match scanDueNotifs now limit s.notification_outbox [] with
  | .error e => .error e
  | .ok ns => .ok (sortStable (fun n => n.next_attempt_at) ns)

/-- `BookingData` from p2p/protocol.rs. -/
structure BookingData where
  date : String
  start_time : String
  end_time : String
  name : String

/-- `NotifyData` from p2p/protocol.rs. -/
structure NotifyData where
  email : String
  locale : Option String
  timezone : Option String

/-- Only the acknowledgement variant of the wire `Msg` enum is produced by
the broker handler. -/
inductive Msg where
  | bookingAck (correlation_id : String) (status : String)

def optStrJson : Option String → Json
  | none => .nullv
  | some s => .strv s

/-- `serde_json::to_string(&booking)`: the serialized booking payload. -/
def bookingToJson (b : BookingData) : Json :=
  .objv [("date", .strv b.date), ("start_time", .strv b.start_time),
         ("end_time", .strv b.end_time), ("name", .strv b.name)]

/-- `serde_json::to_string(&notify)`: the serialized notify payload. -/
def notifyToJson (n : NotifyData) : Json :=
  .objv [("email", .strv n.email), ("locale", optStrJson n.locale),
         ("timezone", optStrJson n.timezone)]

/-- The fresh job built by `handle_submit_booking` for a new correlation id. -/
def mkJob (correlation_id : String) (b : BookingData) (n : NotifyData)
    (now : Int) : BookingJob :=
  { correlation_id := correlation_id
    booking_json := bookingToJson b
    notify_json := notifyToJson n
    state := JobState.queued
    attempts := 0
    next_attempt_at := now
    last_error := none
    http_status := none
    central_response_json := none
    created_at := now
    updated_at := now }

/-- The reply-status mapping of `handle_submit_booking` for an existing job. -/
def ackStatus : JobState → String
  | JobState.confirmed => "confirmed"
  | JobState.failed => "failed"
  | _ => "queued"

/-- `BrokerHandler::handle_submit_booking`. -/
def handle_submit_booking (s : BrokerStore) (correlation_id : String)
    (booking : BookingData) (notify : NotifyData) (now : Int) :
    Except String (BrokerStore × Msg) :=
  match get_booking_job s correlation_id with
  | .error e => .error e
  | .ok (some existing_job) =>
    .ok (s, .bookingAck correlation_id (ackStatus existing_job.state))
  | .ok none =>
    let job := mkJob correlation_id booking notify now
    .ok (persist_booking_job s job, .bookingAck correlation_id "queued")

/-! Durable two-level store: `mem` is the sled page cache, `disk` the state
that survives a crash; `Db::flush` copies `mem` to `disk`.  The fresh-submit
path of `handle_submit_booking` is decomposed into its micro-operations so
that a crash at any point of the sequence can be examined. -/

structure DurStore where
  mem : BrokerStore
  disk : BrokerStore

inductive MicroOp where
  | insertJob (job : BookingJob)
  | insertIdx (key : String)
  | flushDb
  | ackOut (m : Msg)

def applyMicro (d : DurStore) : MicroOp → DurStore
  | .insertJob job =>
    { d with mem := { d.mem with
        booking_jobs := treeInsert d.mem.booking_jobs job.correlation_id (.stored job) } }
  | .insertIdx key =>
    { d with mem := { d.mem with
        booking_jobs := treeInsert d.mem.booking_jobs key .idx } }
  | .flushDb => { d with disk := d.mem }
  | .ackOut _ => d

def applyMicros (d : DurStore) (ops : List MicroOp) : DurStore :=
  ops.foldl applyMicro d

/-- The micro-operation sequence of a fresh submission: insert the record,
insert its scheduling index entry, flush, and only then emit the ACK. -/
def submitMicros (correlation_id : String) (b : BookingData) (n : NotifyData)
    (now : Int) : List MicroOp :=
  let job := mkJob correlation_id b n now
  [.insertJob job, .insertIdx (jobIndexKey job), .flushDb,
   .ackOut (.bookingAck correlation_id "queued")]

/-! Forwarder (forwarder.rs). -/

def MAX_BACKOFF_MS : Nat := 300000
def JITTER_MS : Nat := 1000
def U64_MAX : Nat := 2 ^ 64 - 1

/-- `u64::saturating_mul`. -/
def satMulU64 (a b : Nat) : Nat := min (a * b) U64_MAX

/-- Forwarder configuration taken from `Config`. -/
structure ForwarderConfig where
  max_retry_attempts : Nat
  initial_backoff_ms : Nat

/-- `ForwarderWorker::calculate_backoff`, with the random jitter draw made a
parameter (the source draws it uniformly from `0..=JITTER_MS`). -/
def calculate_backoff (initial_backoff_ms : Nat) (attempts : Nat)
    (jitter : Nat) : Nat :=
  let base_delay := satMulU64 initial_backoff_ms (2 ^ min attempts 20)
  let delay := min base_delay MAX_BACKOFF_MS
  delay + jitter

/-- `ForwarderWorker::handle_retry`. -/
def handle_retry (cfg : ForwarderConfig) (s : BrokerStore)
    (correlation_id : String) (current_attempts : Nat) (err : String)
    (now : Int) (jitter : Nat) : Except String BrokerStore :=
  let new_attempts := current_attempts + 1
  if new_attempts > cfg.max_retry_attempts then
    update_job_state s correlation_id
      { state := JobState.failed, attempts := some new_attempts,
        next_attempt_at := none,
        last_error := some ("Max retries exceeded: " ++ err),
        http_status := none, central_response_json := none } now
  else
    let backoff_delay := calculate_backoff cfg.initial_backoff_ms new_attempts jitter
    let next_attempt_at := now + (backoff_delay : Int)
    update_job_state s correlation_id
      { state := JobState.queued, attempts := some new_attempts,
        next_attempt_at := some next_attempt_at, last_error := some err,
        http_status := none, central_response_json := none } now

/-- The notification record built by `ForwarderWorker::create_notification`. -/
def mkNotif (correlation_id : String) (email : String) (now : Int) :
    NotificationRecord :=
  { correlation_id := correlation_id
    email_to := email
    state := NotificationState.pending
    attempts := 0
    next_attempt_at := now
    last_error := none
    subject := ""
    body := ""
    simulated_sent_at := none
    created_at := now
    updated_at := now }

/-- `ForwarderWorker::create_notification`. -/
def create_notification (s : BrokerStore) (correlation_id : String)
    (notify_json : Json) (now : Int) : Except String BrokerStore :=
  match notify_json.fromStr with
  | none => .error "Failed to parse notify_json"
  | some notify =>
    match (notify.get "email").asStr with
    | none => .error "Missing email in notify data"
    | some email =>
      .ok (persist_notification s (mkNotif correlation_id email now))

/-- The outcome of one outbound HTTP exchange, abstracting `reqwest`. -/
inductive HttpOutcome where
  | resp (status : Nat) (body : String)
  | bodyReadErr (e : String)
  | netErr (e : String)

/-- `StatusCode::is_success`. -/
def isSuccessStatus (status : Nat) : Prop := 200 ≤ status ∧ status < 300

instance (status : Nat) : Decidable (isSuccessStatus status) :=
  inferInstanceAs (Decidable (_ ∧ _))

/-- The patch sent by `process_job` for the `Queued → Sending` transition. -/
def sendingUpdate : JobStateUpdate :=
  { state := JobState.sending, attempts := none, next_attempt_at := none,
    last_error := none, http_status := none, central_response_json := none }

/-- `ForwarderWorker::process_job`.  Returns the store after the attempt and
whether the attempt completed without a per-job error (`process_due_jobs`
logs and continues either way). -/
def process_job (cfg : ForwarderConfig) (s : BrokerStore) (job : BookingJob)
    (outcome : HttpOutcome) (now : Int) (jitter : Nat) : BrokerStore × Bool :=
  let correlation_id := job.correlation_id
  match update_job_state s correlation_id sendingUpdate now with
  | .error _ => (s, false)
  | .ok s1 =>
    match job.booking_json.fromStr with
    | none => (s1, false)
    | some _booking =>
      match outcome with
      | .resp status body =>
        if isSuccessStatus status then
          match update_job_state s1 correlation_id
              { state := JobState.confirmed, attempts := none,
                next_attempt_at := none, last_error := none,
                http_status := some status,
                central_response_json := some body } now with
          | .error _ => (s1, false)
          | .ok s2 =>
            match create_notification s2 correlation_id job.notify_json now with
            | .error _ => (s2, false)
            | .ok s3 => (s3, true)
        else
          match update_job_state s1 correlation_id
              { state := JobState.failed, attempts := none,
                next_attempt_at := none,
                last_error := some ("HTTP " ++ toString status ++ ": " ++ body),
                http_status := some status,
                central_response_json := some body } now with
          | .error _ => (s1, false)
          | .ok s2 => (s2, true)
      | .bodyReadErr e =>
        match handle_retry cfg s1 correlation_id job.attempts e now jitter with
        | .error _ => (s1, false)
        | .ok s2 => (s2, true)
      | .netErr e =>
        match handle_retry cfg s1 correlation_id job.attempts e now jitter with
        | .error _ => (s1, false)
        | .ok s2 => (s2, true)

/-- The per-tick loop body over the scanned batch, threading the store. -/
def processJobList (cfg : ForwarderConfig) (out : String → HttpOutcome)
    (jit : String → Nat) (now : Int) :
    BrokerStore → List BookingJob → BrokerStore
  | s, [] => s
  | s, job :: rest =>
    processJobList cfg out jit now
      (process_job cfg s job (out job.correlation_id) now (jit job.correlation_id)).1
      rest

/-- `ForwarderWorker::process_due_jobs`: one tick (batch limit 10).  A
storage error from the scan is logged and the tick does nothing. -/
def process_due_jobs (cfg : ForwarderConfig) (s : BrokerStore)
    (out : String → HttpOutcome) (jit : String → Nat) (now : Int) : BrokerStore :=
  match get_due_jobs s now 10 with
  | .error _ => s
  | .ok jobs => processJobList cfg out jit now s jobs

/-! Notifier (notifier.rs). -/

/-- `NotifierWorker::build_email`. -/
def build_email (job : BookingJob) : Except String (String × String) :=
  match job.booking_json.fromStr with
  | none => .error "Failed to parse booking_json"
  | some booking =>
    let date := ((booking.get "date").asStr).getD "Unknown"
    let start_time := ((booking.get "start_time").asStr).getD "Unknown"
    let end_time := ((booking.get "end_time").asStr).getD "Unknown"
    let name := ((booking.get "name").asStr).getD "Unknown"
    let response_info :=
      match job.central_response_json with
      | some response_json => "Response: " ++ response_json
      | none => "Booking confirmed"
    let subject := "Booking Confirmed - " ++ name
    let body := "Hello " ++ name ++ ",\n\nYour booking has been confirmed:\n\nDate: "
      ++ date ++ "\nTime: " ++ start_time ++ " - " ++ end_time ++ "\nName: "
      ++ name ++ "\n\n" ++ response_info ++ "\n\nThank you!"
    .ok (subject, body)

/-- UTF-8 byte length of a character sequence: `str.len()` in Rust. -/
def utf8Len : List Char → Nat
  | [] => 0
  | c :: cs => c.utf8Size + utf8Len cs

/-- The Rust byte slice `&s[..n]` on the UTF-8 encoding of `cs`: the
characters making up the first `n` bytes, or `none` when byte `n` falls
inside a multi-byte character or past the end of the string (the slice
panics there). -/
def sliceBytes : List Char → Nat → Option (List Char)
  | _, 0 => some []
  | [], Nat.succ _ => none
  | c :: cs, Nat.succ m =>
    if c.utf8Size ≤ m + 1 then
      match sliceBytes cs (m + 1 - c.utf8Size) with
      | some out => some (c :: out)
      | none => none
    else none

/-- The `body_preview` field of the simulated-email log line in
`process_notification`: `body.len() > 100` tests the UTF-8 byte length and
`&body[..100]` takes the first 100 bytes — a byte slice that panics
(modelled as `none`) when byte 100 is not a character boundary — with the
ellipsis appended to the slice. -/
def body_preview (body : String) : Option String :=
  if utf8Len body.data > 100 then
    match sliceBytes body.data 100 with
    | some cs => some (String.mk cs ++ "...")
    | none => none
  else some body

/-- The simulated-email preview the notifier would log for a job (`none`
when the byte slice would panic). -/
def emailPreview (job : BookingJob) : Except String (Option String) :=
  match build_email job with
  | .error e => .error e
  | .ok sb => .ok (body_preview sb.2)

/-- `NotifierWorker::process_notification`.  Returns the store after the
item and whether it completed without error. -/
def process_notification (s : BrokerStore) (notif : NotificationRecord)
    (now : Int) : BrokerStore × Bool :=
  match get_booking_job s notif.correlation_id with
  | .error _ => (s, false)
  | .ok none => (s, false)
  | .ok (some job) =>
    if job.state ≠ JobState.confirmed then (s, true)
    else
      match build_email job with
      | .error _ => (s, false)
      | .ok sb =>
        match update_notification_state s notif.correlation_id
            NotificationState.simulatedSent (some now) (some sb.1) (some sb.2) now with
        | .error _ => (s, false)
        | .ok s1 => (s1, true)

def processNotifList (now : Int) :
    BrokerStore → List NotificationRecord → BrokerStore
  | s, [] => s
  | s, notif :: rest =>
    processNotifList now (process_notification s notif now).1 rest

/-- `NotifierWorker::process_due_notifications`: one tick (batch limit 10). -/
def process_due_notifications (s : BrokerStore) (now : Int) : BrokerStore :=
  match get_due_notifications s now 10 with
  | .error _ => s
  | .ok notifs => processNotifList now s notifs

/-! System step relation: an interleaving of submission handling, forwarder
ticks, and notifier ticks over the shared store (one forwarder and one
notifier instance, as the design assumes). -/

inductive Step (cfg : ForwarderConfig) : BrokerStore → BrokerStore → Prop where
  | submit (s s' : BrokerStore) (cid : String) (b : BookingData)
      (n : NotifyData) (now : Int) (m : Msg)
      (h : handle_submit_booking s cid b n now = .ok (s', m)) : Step cfg s s'
  | submitErr (s : BrokerStore) (cid : String) (b : BookingData)
      (n : NotifyData) (now : Int) (e : String)
      (h : handle_submit_booking s cid b n now = .error e) : Step cfg s s
  | forwarderTick (s : BrokerStore) (out : String → HttpOutcome)
      (jit : String → Nat) (now : Int) :
      Step cfg s (process_due_jobs cfg s out jit now)
  | notifierTick (s : BrokerStore) (now : Int) :
      Step cfg s (process_due_notifications s now)

/-! ### Sample data for concrete witnesses and counterexamples -/

def sampleBooking : BookingData :=
  { date := "2026-01-15", start_time := "10:00", end_time := "11:00", name := "Alice" }

def sampleNotify : NotifyData :=
  { email := "a@x.io", locale := none, timezone := none }

/-! ### C4: backoff bounds -/

/-! ### C3: the due-jobs scan chokes on its own index entries -/

def c3Store : BrokerStore :=
  persist_booking_job emptyStore (mkJob "c1" sampleBooking sampleNotify 1700000000000)

/-! ### C10: body preview truncation -/

/-- An all-ASCII body of 101 bytes (= 101 characters). -/
def c10AsciiBody : String := String.mk (List.replicate 101 'a')

/-- A 203-byte body in which byte 100 falls inside a two-byte character. -/
def c10WideBody : String := String.mk ('a' :: List.replicate 101 'é')

def c10Job : BookingJob :=
  { mkJob "c1" sampleBooking sampleNotify 5 with
      state := JobState.confirmed, http_status := some 200,
      central_response_json := some "ok-42" }

/-! ### C7: update_job_state frame conditions -/

/-- The store produced by a successful `update_job_state`. -/
def updatedStore (s : BrokerStore) (correlation_id : String)
    (u : JobStateUpdate) (now : Int) (j : BookingJob) : BrokerStore :=
  { s with booking_jobs :=
      (update_job_index
        (treeInsert s.booking_jobs correlation_id (.stored (applyUpdate j u now)))
        (applyUpdate j u now)) }

/-! ### C1: idempotent submission -/

/-- A sequence of `handle_submit_booking` calls for one correlation id; each
entry is the payload pair and the clock value of that call. -/
def submitSeq (s : BrokerStore) (cid : String) :
    List (BookingData × NotifyData × Int) → BrokerStore × List Msg
  | [] => (s, [])
  | (b, n, t) :: rest =>
    match handle_submit_booking s cid b n t with
    | .error _ => submitSeq s cid rest
    | .ok (s1, m) =>
      let r := submitSeq s1 cid rest
      (r.1, m :: r.2)

/-- The tree is strictly sorted by sled's key order. -/
def TreeSorted {α : Type} (t : Tree α) : Prop :=
  t.Pairwise (fun p q => keyLt p.1 q.1 = true)

/-- Well-formed tree: strictly key-sorted, and every record keyed by its
own correlation id. -/
def WFTree {α : Type} (cidOf : α → String) (t : Tree α) : Prop :=
  (∀ p ∈ t, ∀ a : α, p.2 = TreeVal.stored a → cidOf a = p.1) ∧ TreeSorted t

/-- Well-formedness of a store: both trees are strictly key-sorted and every
record sits under its own correlation id.  The empty store is well-formed
and (proved below) every broker operation preserves well-formedness. -/
def WFStore (s : BrokerStore) : Prop :=
  WFTree (fun j => j.correlation_id) s.booking_jobs ∧
  WFTree (fun n => n.correlation_id) s.notification_outbox

/-! ### C5: retry path and retry cap -/

/-- The patch written by `handle_retry` when retries are exhausted. -/
def failRetryUpdate (attempts : Nat) (err : String) : JobStateUpdate :=
  { state := JobState.failed, attempts := some attempts,
    next_attempt_at := none,
    last_error := some ("Max retries exceeded: " ++ err),
    http_status := none, central_response_json := none }

/-- The patch written by `handle_retry` when rescheduling. -/
def queuedRetryUpdate (attempts : Nat) (err : String) (next : Int) :
    JobStateUpdate :=
  { state := JobState.queued, attempts := some attempts,
    next_attempt_at := some next, last_error := some err,
    http_status := none, central_response_json := none }

/-! ### C6: response classification -/

/-- The patch written on a 2xx response. -/
def confirmUpdate (status : Nat) (body : String) : JobStateUpdate :=
  { state := JobState.confirmed, attempts := none, next_attempt_at := none,
    last_error := none, http_status := some status,
    central_response_json := some body }

/-- The patch written on a non-2xx response. -/
def failHttpUpdate (status : Nat) (body : String) : JobStateUpdate :=
  { state := JobState.failed, attempts := none, next_attempt_at := none,
    last_error := some ("HTTP " ++ toString status ++ ": " ++ body),
    http_status := some status, central_response_json := some body }

/-! ### C9: terminal states are never exited -/

/-- Invariant at a key: the entry holds a record with the given state, or
has been overwritten by an empty index entry (never a record in any other
state).  No operation ever deletes a key. -/
def TreeTermInv (t : Tree BookingJob) (cid : String) (st : JobState) : Prop :=
  (∃ j, treeGet t cid = some (.stored j) ∧ j.state = st) ∨
    treeGet t cid = some TreeVal.idx

def c9Job : BookingJob :=
  applyUpdate
    (applyUpdate (mkJob "c1" sampleBooking sampleNotify 1700000000000)
      sendingUpdate 9)
    (confirmUpdate 200 "ok-42") 9

def c9Store : BrokerStore :=
  (process_job ⟨10, 1000⟩ c3Store
    (mkJob "c1" sampleBooking sampleNotify 1700000000000)
    (.resp 200 "ok-42") 9 7).1

def c9Store2 : BrokerStore :=
  persist_booking_job c9Store (mkJob "c2" sampleBooking sampleNotify 11)

/-- Point invariant on the outbox: the key holds a fixed stored record or an
index entry. -/
def NotifKeyInv (t : Tree NotificationRecord) (cid : String)
    (n1 : NotificationRecord) : Prop :=
  treeGet t cid = some (.stored n1) ∨ treeGet t cid = some TreeVal.idx

/-- Point invariant on the outbox: the key holds an index entry. -/
def NotifIdxInv (t : Tree NotificationRecord) (cid : String) : Prop :=
  treeGet t cid = some TreeVal.idx

/-- Point invariant on the outbox: the key is absent or an index entry. -/
def NotifAbsInv (t : Tree NotificationRecord) (cid : String) : Prop :=
  treeGet t cid = none ∨ treeGet t cid = some TreeVal.idx

def c8Cid : String := "cccccccccccccccccccccccccccccccccccccccccccccccccccccccccc"

def c8Store : BrokerStore :=
  persist_booking_job emptyStore (mkJob c8Cid sampleBooking sampleNotify 1)

def c8Store2 : BrokerStore :=
  process_due_jobs ⟨10, 1000⟩ c8Store (fun _ => .resp 200 "ok") (fun _ => 0) 1

/-! ### Helper lemmas about the tree model -/

theorem keyLtChars_irrefl (l : List Char) : keyLtChars l l = false := by
  induction l with
  | nil => rfl
  | cons a as ih => simp [keyLtChars, ih]

theorem keyLt_irrefl (a : String) : keyLt a a = false := keyLtChars_irrefl a.data

theorem treeGet_insert_self {α : Type} (t : Tree α) (k : String) (v : TreeVal α) :
    treeGet (treeInsert t k v) k = some v := by
  induction t with
  | nil => simp [treeInsert, treeGet]
  | cons p rest ih =>
    obtain ⟨k', v'⟩ := p
    simp only [treeInsert]
    by_cases h1 : keyLt k k'
    · simp [h1, treeGet]
    · by_cases h2 : k = k'
      · simp [h1, h2, treeGet, keyLt_irrefl]
      · simp [h1, h2, treeGet, ih]

theorem treeGet_insert_ne {α : Type} (t : Tree α) (k q : String) (v : TreeVal α)
    (h : q ≠ k) : treeGet (treeInsert t k v) q = treeGet t q := by
  induction t with
  | nil => simp [treeInsert, treeGet, h]
  | cons p rest ih =>
    obtain ⟨k', v'⟩ := p
    simp only [treeInsert]
    by_cases h1 : keyLt k k'
    · simp [h1, treeGet, h]
    · by_cases h2 : k = k'
      · subst h2
        simp [h1, treeGet, h]
      · by_cases h3 : q = k'
        · simp [h1, h2, treeGet, h3]
        · simp [h1, h2, treeGet, h3, ih]

theorem treeGet_mem {α : Type} (t : Tree α) (k : String) (v : TreeVal α)
    (h : treeGet t k = some v) : (k, v) ∈ t := by
  induction t with
  | nil => simp [treeGet] at h
  | cons p rest ih =>
    obtain ⟨k', v'⟩ := p
    simp only [treeGet] at h
    by_cases h1 : k = k'
    · simp [h1] at h
      subst h1 h
      exact List.mem_cons_self _ _
    · simp [h1] at h
      exact List.mem_cons_of_mem _ (ih h)

theorem jobIndexKey_length (j : BookingJob) :
    (jobIndexKey j).length =
      8 + (toString j.next_attempt_at).length + j.correlation_id.length := by
  unfold jobIndexKey
  rw [String.length_append, String.length_append, String.length_append]
  have h1 : ("queued:" : String).length = 7 := rfl
  have h2 : (":" : String).length = 1 := rfl
  omega

theorem jobIndexKey_ne (j : BookingJob) (k : String)
    (hk : k.length = j.correlation_id.length) : jobIndexKey j ≠ k := by
  intro h
  have := jobIndexKey_length j
  rw [h, hk] at this
  omega

theorem notifIndexKey_length (n : NotificationRecord) :
    (notifIndexKey n).length =
      9 + (toString n.next_attempt_at).length + n.correlation_id.length := by
  unfold notifIndexKey
  rw [String.length_append, String.length_append, String.length_append]
  have h1 : ("pending:" : String).length = 8 := rfl
  have h2 : (":" : String).length = 1 := rfl
  omega

theorem notifIndexKey_ne (n : NotificationRecord) (k : String)
    (hk : k.length = n.correlation_id.length) : notifIndexKey n ≠ k := by
  intro h
  have := notifIndexKey_length n
  rw [h, hk] at this
  omega

theorem treeGet_update_job_index_ne (t : Tree BookingJob) (j : BookingJob)
    (k : String) (h : k ≠ jobIndexKey j) :
    treeGet (update_job_index t j) k = treeGet t k := by
  unfold update_job_index
  split
  · exact treeGet_insert_ne t (jobIndexKey j) k .idx h
  · rfl

theorem treeGet_update_job_index_cases (t : Tree BookingJob) (j : BookingJob)
    (k : String) :
    treeGet (update_job_index t j) k = treeGet t k ∨
      treeGet (update_job_index t j) k = some TreeVal.idx := by
  by_cases h : k = jobIndexKey j
  · unfold update_job_index
    split
    · right
      rw [h]
      exact treeGet_insert_self ..
    · left
      rfl
  · left
    exact treeGet_update_job_index_ne t j k h

theorem treeGet_update_notification_index_ne (t : Tree NotificationRecord)
    (n : NotificationRecord) (k : String) (h : k ≠ notifIndexKey n) :
    treeGet (update_notification_index t n) k = treeGet t k := by
  unfold update_notification_index
  split
  · exact treeGet_insert_ne t (notifIndexKey n) k .idx h
  · rfl

theorem treeGet_update_notification_index_cases (t : Tree NotificationRecord)
    (n : NotificationRecord) (k : String) :
    treeGet (update_notification_index t n) k = treeGet t k ∨
      treeGet (update_notification_index t n) k = some TreeVal.idx := by
  by_cases h : k = notifIndexKey n
  · unfold update_notification_index
    split
    · right
      rw [h]
      exact treeGet_insert_self ..
    · left
      rfl
  · left
    exact treeGet_update_notification_index_ne t n k h

/-- Claim C4: for every attempt count `k ≥ 1` and every jitter draw, the
retry delay `d` computed by `calculate_backoff` satisfies
`min(initial_backoff_ms * 2^min(k,20), 300000) ≤ d ≤ that + 1000`: the
doubling saturates instead of overflowing, the base delay is capped at
300000 ms before jitter, and the jitter is an inclusive uniform integer in
`[0, 1000]` ms. -/
theorem calculate_backoff_bounds (ib k jitter : Nat) (hk : 1 ≤ k)
    (hj : jitter ≤ JITTER_MS) :
    min (ib * 2 ^ min k 20) 300000 ≤ calculate_backoff ib k jitter ∧
    calculate_backoff ib k jitter ≤ min (ib * 2 ^ min k 20) 300000 + 1000 := by
  have hJ : JITTER_MS = 1000 := rfl
  rw [hJ] at hj
  simp only [calculate_backoff, satMulU64, MAX_BACKOFF_MS, U64_MAX]
  constructor <;> omega

theorem calculate_backoff_bounds_witness :
    1 ≤ 3 ∧ 7 ≤ JITTER_MS ∧
    (min (1000 * 2 ^ min 3 20) 300000 ≤ calculate_backoff 1000 3 7 ∧
     calculate_backoff 1000 3 7 ≤ min (1000 * 2 ^ min 3 20) 300000 + 1000) :=
  ⟨by decide, by decide, calculate_backoff_bounds 1000 3 7 (by decide) (by decide)⟩

/-- Claim C3 (refuted; the code contradicts its own intent): after persisting
one ordinary queued job, the store holds the job and a 23-byte scheduling
index entry `queued:1700000000000:c1`; the scan's `key.len() > 64` heuristic
does not skip that entry, deserializing its empty value fails, and
`get_due_jobs` returns an error instead of the due job. -/
theorem get_due_jobs_errors_on_index_entry :
    get_due_jobs c3Store 1700000000000 10 =
      .error "Failed to deserialize booking job" ∧
    get_booking_job c3Store "c1" =
      .ok (some (mkJob "c1" sampleBooking sampleNotify 1700000000000)) ∧
    (jobIndexKey (mkJob "c1" sampleBooking sampleNotify 1700000000000)).length = 23 :=
  ⟨rfl, rfl, rfl⟩

theorem utf8Len_append (a b : List Char) :
    utf8Len (a ++ b) = utf8Len a + utf8Len b := by
  induction a with
  | nil => simp [utf8Len]
  | cons c cs ih =>
    show c.utf8Size + utf8Len (cs ++ b) = c.utf8Size + utf8Len cs + utf8Len b
    rw [ih, Nat.add_assoc]

theorem sliceBytes_utf8Len :
    ∀ (cs : List Char) (n : Nat) (out : List Char),
      sliceBytes cs n = some out → utf8Len out = n := by
  intro cs
  induction cs with
  | nil =>
    intro n out h
    cases n with
    | zero =>
      simp only [sliceBytes, Option.some.injEq] at h
      rw [← h]
      rfl
    | succ m => simp [sliceBytes] at h
  | cons c rest ih =>
    intro n out h
    cases n with
    | zero =>
      simp only [sliceBytes, Option.some.injEq] at h
      rw [← h]
      rfl
    | succ m =>
      simp only [sliceBytes] at h
      by_cases hsz : c.utf8Size ≤ m + 1
      · rw [if_pos hsz] at h
        cases hs : sliceBytes rest (m + 1 - c.utf8Size) with
        | none => rw [hs] at h; simp at h
        | some out2 =>
          rw [hs] at h
          simp only [Option.some.injEq] at h
          rw [← h]
          have h2 := ih _ _ hs
          simp only [utf8Len, h2]
          omega
      · rw [if_neg hsz] at h
        simp at h

set_option maxRecDepth 8000 in
/-- Claim C10 as stated is false: for an ordinary confirmed booking the
rendered body exceeds 100 bytes and the logged `body_preview` is 103
characters long, not at most 100. -/
theorem body_preview_length_counterexample :
    (emailPreview c10Job).map (Option.map String.length) = .ok (some 103) ∧
    ¬(103 ≤ 100) :=
  ⟨rfl, by decide⟩

/-- Claim C10 amended: the `body_preview` of the simulated-email log line
equals the rendered body when that body is at most 100 bytes long; when the
body is longer, the emitted preview is the first 100 bytes of the body
followed by the ellipsis `...` — 103 bytes, which for an ASCII body is 103
characters and in general never more than 103 characters — and when byte
100 falls inside a multi-byte character the byte slice panics, so no
preview is produced. -/
theorem body_preview_truncation (body : String) :
    (utf8Len body.data ≤ 100 → body_preview body = some body) ∧
    (100 < utf8Len body.data →
      ∀ cs, sliceBytes body.data 100 = some cs →
        body_preview body = some (String.mk cs ++ "...") ∧
        utf8Len (String.mk cs ++ "...").data = 103) ∧
    (100 < utf8Len body.data → sliceBytes body.data 100 = none →
      body_preview body = none) ∧
    (∀ p, body_preview body = some p → p.length ≤ 103) ∧
    (∀ (job : BookingJob) (sb : String × String), build_email job = .ok sb →
      emailPreview job = .ok (body_preview sb.2)) := by
  refine ⟨?_, ?_, ?_, ?_, ?_⟩
  · intro h
    unfold body_preview
    rw [if_neg (by omega)]
  · intro h cs hcs
    unfold body_preview
    rw [if_pos (by omega), hcs]
    refine ⟨rfl, ?_⟩
    rw [show (String.mk cs ++ ("..." : String)).data =
      cs ++ ("..." : String).data from String.data_append .., utf8Len_append,
      sliceBytes_utf8Len body.data 100 cs hcs]
    rfl
  · intro h hnone
    unfold body_preview
    rw [if_pos (by omega), hnone]
  · intro p hp
    unfold body_preview at hp
    by_cases h : utf8Len body.data > 100
    · rw [if_pos h] at hp
      cases hcs : sliceBytes body.data 100 with
      | none => rw [hcs] at hp; simp at hp
      | some cs =>
        rw [hcs] at hp
        simp only [Option.some.injEq] at hp
        have hlen : utf8Len cs = 100 := sliceBytes_utf8Len body.data 100 cs hcs
        have hchars : cs.length ≤ utf8Len cs := by
          clear hlen hcs hp
          induction cs with
          | nil => simp [utf8Len]
          | cons c rest ih =>
            have := c.utf8Size_pos
            simp only [List.length_cons, utf8Len]
            omega
        rw [← hp]
        have h1 : (String.mk cs ++ ("..." : String)).length =
            cs.length + 3 := by
          rw [String.length_append]
          rfl
        omega
    · rw [if_neg h] at hp
      simp only [Option.some.injEq] at hp
      rw [← hp]
      have hchars : body.data.length ≤ utf8Len body.data := by
        generalize body.data = cs
        induction cs with
        | nil => simp [utf8Len]
        | cons c rest ih =>
          have := c.utf8Size_pos
          simp only [List.length_cons, utf8Len]
          omega
      have hb : body.length = body.data.length := rfl
      omega
  · intro job sb h
    unfold emailPreview
    rw [h]

set_option maxRecDepth 8000 in
theorem body_preview_truncation_witness :
    100 < utf8Len c10AsciiBody.data ∧
    sliceBytes c10AsciiBody.data 100 = some (List.replicate 100 'a') ∧
    body_preview c10AsciiBody =
      some (String.mk (List.replicate 100 'a') ++ "...") ∧
    utf8Len (String.mk (List.replicate 100 'a') ++ "...").data = 103 ∧
    100 < utf8Len c10WideBody.data ∧
    sliceBytes c10WideBody.data 100 = none ∧
    body_preview c10WideBody = none :=
  ⟨by decide, rfl,
    ((body_preview_truncation c10AsciiBody).2.1 (by decide) _ rfl).1,
    ((body_preview_truncation c10AsciiBody).2.1 (by decide) _ rfl).2,
    by decide, rfl,
    (body_preview_truncation c10WideBody).2.2.1 (by decide) rfl⟩

theorem update_job_state_ok (s : BrokerStore) (cid : String)
    (u : JobStateUpdate) (now : Int) (j : BookingJob)
    (h : get_booking_job s cid = .ok (some j)) :
    update_job_state s cid u now = .ok (updatedStore s cid u now j) := by
  unfold update_job_state updatedStore
  rw [h]

theorem applyUpdate_correlation_id (j : BookingJob) (u : JobStateUpdate)
    (now : Int) : (applyUpdate j u now).correlation_id = j.correlation_id := rfl

theorem get_booking_job_updatedStore (s : BrokerStore) (cid : String)
    (u : JobStateUpdate) (now : Int) (j : BookingJob)
    (hcid : j.correlation_id = cid) :
    get_booking_job (updatedStore s cid u now j) cid =
      .ok (some (applyUpdate j u now)) := by
  unfold get_booking_job updatedStore
  have hne : cid ≠ jobIndexKey (applyUpdate j u now) := by
    intro he
    exact jobIndexKey_ne (applyUpdate j u now) cid
      (by rw [applyUpdate_correlation_id, hcid]) he.symm
  simp only [treeGet_update_job_index_ne _ _ _ hne, treeGet_insert_self]

/-- Claim C7: `update_job_state(cid, patch)` overwrites exactly the job's
state, the patch fields that are present (attempts, next_attempt_at,
last_error, http_status, central_response), and `updated_at`; every other
field — correlation id, payloads, created_at, and every omitted patch field
— is unchanged, the notification tree and all other record keys are
untouched, and in particular the `Queued → Sending` patch used by the
forwarder preserves `attempts` and `next_attempt_at`. -/
theorem update_job_state_frame (s : BrokerStore) (cid : String)
    (u : JobStateUpdate) (now : Int) (j : BookingJob)
    (h : get_booking_job s cid = .ok (some j)) (hcid : j.correlation_id = cid) :
    update_job_state s cid u now = .ok (updatedStore s cid u now j) ∧
    get_booking_job (updatedStore s cid u now j) cid =
      .ok (some (applyUpdate j u now)) ∧
    (applyUpdate j u now).state = u.state ∧
    (applyUpdate j u now).updated_at = now ∧
    (applyUpdate j u now).correlation_id = j.correlation_id ∧
    (applyUpdate j u now).booking_json = j.booking_json ∧
    (applyUpdate j u now).notify_json = j.notify_json ∧
    (applyUpdate j u now).created_at = j.created_at ∧
    (u.attempts = none → (applyUpdate j u now).attempts = j.attempts) ∧
    (∀ a, u.attempts = some a → (applyUpdate j u now).attempts = a) ∧
    (u.next_attempt_at = none →
      (applyUpdate j u now).next_attempt_at = j.next_attempt_at) ∧
    (∀ ta, u.next_attempt_at = some ta →
      (applyUpdate j u now).next_attempt_at = ta) ∧
    (u.last_error = none → (applyUpdate j u now).last_error = j.last_error) ∧
    (∀ e, u.last_error = some e → (applyUpdate j u now).last_error = some e) ∧
    (u.http_status = none → (applyUpdate j u now).http_status = j.http_status) ∧
    (∀ c, u.http_status = some c → (applyUpdate j u now).http_status = some c) ∧
    (u.central_response_json = none →
      (applyUpdate j u now).central_response_json = j.central_response_json) ∧
    (∀ r, u.central_response_json = some r →
      (applyUpdate j u now).central_response_json = some r) ∧
    (updatedStore s cid u now j).notification_outbox = s.notification_outbox ∧
    (∀ k, k ≠ cid → k ≠ jobIndexKey (applyUpdate j u now) →
      treeGet (updatedStore s cid u now j).booking_jobs k =
        treeGet s.booking_jobs k) ∧
    ((applyUpdate j sendingUpdate now).attempts = j.attempts ∧
     (applyUpdate j sendingUpdate now).next_attempt_at = j.next_attempt_at ∧
     (applyUpdate j sendingUpdate now).state = JobState.sending) := by
  refine ⟨update_job_state_ok s cid u now j h,
    get_booking_job_updatedStore s cid u now j hcid,
    rfl, rfl, rfl, rfl, rfl, rfl, ?_, ?_, ?_, ?_, ?_, ?_, ?_, ?_, ?_, ?_,
    rfl, ?_, ⟨rfl, rfl, rfl⟩⟩
  · intro ha
    simp [applyUpdate, ha]
  · intro a ha
    simp [applyUpdate, ha]
  · intro ha
    simp [applyUpdate, ha]
  · intro ta ha
    simp [applyUpdate, ha]
  · intro ha
    simp [applyUpdate, ha]
  · intro e ha
    simp [applyUpdate, ha]
  · intro ha
    simp [applyUpdate, ha]
  · intro c ha
    simp [applyUpdate, ha]
  · intro ha
    simp [applyUpdate, ha]
  · intro r ha
    simp [applyUpdate, ha]
  · intro k hk1 hk2
    unfold updatedStore
    simp only [treeGet_update_job_index_ne _ _ _ hk2,
      treeGet_insert_ne _ _ _ _ hk1]

set_option maxRecDepth 8000 in
theorem update_job_state_frame_witness :
    get_booking_job c3Store "c1" =
      .ok (some (mkJob "c1" sampleBooking sampleNotify 1700000000000)) ∧
    (mkJob "c1" sampleBooking sampleNotify 1700000000000).correlation_id = "c1" ∧
    update_job_state c3Store "c1" sendingUpdate 6 =
      .ok (updatedStore c3Store "c1" sendingUpdate 6
            (mkJob "c1" sampleBooking sampleNotify 1700000000000)) ∧
    get_booking_job
        (updatedStore c3Store "c1" sendingUpdate 6
          (mkJob "c1" sampleBooking sampleNotify 1700000000000)) "c1" =
      .ok (some (applyUpdate (mkJob "c1" sampleBooking sampleNotify 1700000000000)
            sendingUpdate 6)) :=
  ⟨rfl, rfl,
    (update_job_state_frame c3Store "c1" sendingUpdate 6
      (mkJob "c1" sampleBooking sampleNotify 1700000000000) rfl rfl).1,
    (update_job_state_frame c3Store "c1" sendingUpdate 6
      (mkJob "c1" sampleBooking sampleNotify 1700000000000) rfl rfl).2.1⟩

theorem handle_submit_existing (s : BrokerStore) (cid : String)
    (b : BookingData) (n : NotifyData) (t : Int) (j : BookingJob)
    (h : get_booking_job s cid = .ok (some j)) :
    handle_submit_booking s cid b n t =
      .ok (s, .bookingAck cid (ackStatus j.state)) := by
  unfold handle_submit_booking
  rw [h]

theorem handle_submit_fresh (s : BrokerStore) (cid : String)
    (b : BookingData) (n : NotifyData) (t : Int)
    (h : get_booking_job s cid = .ok none) :
    handle_submit_booking s cid b n t =
      .ok (persist_booking_job s (mkJob cid b n t), .bookingAck cid "queued") := by
  unfold handle_submit_booking
  rw [h]

theorem get_booking_job_none_treeGet (s : BrokerStore) (cid : String)
    (h : get_booking_job s cid = .ok none) : treeGet s.booking_jobs cid = none := by
  unfold get_booking_job at h
  cases hg : treeGet s.booking_jobs cid with
  | none => rfl
  | some v =>
    cases v <;> rw [hg] at h <;> simp at h

theorem get_after_persist_fresh (s : BrokerStore) (cid : String)
    (b : BookingData) (n : NotifyData) (t : Int)
    (h : get_booking_job s cid = .ok none) :
    get_booking_job (persist_booking_job s (mkJob cid b n t)) cid =
      .ok (some (mkJob cid b n t)) := by
  have hg := get_booking_job_none_treeGet s cid h
  unfold persist_booking_job treeContains
  rw [show (mkJob cid b n t).correlation_id = cid from rfl, hg]
  simp only [Option.isSome_none, Bool.false_eq_true, if_false]
  unfold get_booking_job
  have hne : cid ≠ jobIndexKey (mkJob cid b n t) := by
    intro he
    exact jobIndexKey_ne (mkJob cid b n t) cid rfl he.symm
  simp only [treeGet_update_job_index_ne _ _ _ hne, treeGet_insert_self]

theorem submitSeq_existing (cid : String) (j : BookingJob)
    (calls : List (BookingData × NotifyData × Int)) :
    ∀ s : BrokerStore, get_booking_job s cid = .ok (some j) →
      submitSeq s cid calls =
        (s, calls.map (fun _ => Msg.bookingAck cid (ackStatus j.state))) := by
  induction calls with
  | nil => intro s _; rfl
  | cons c rest ih =>
    intro s h
    obtain ⟨b, n, t⟩ := c
    simp only [submitSeq, handle_submit_existing s cid b n t j h, List.map_cons]
    rw [ih s h]

/-- Claim C1: for one correlation id, any number of submissions — the first
on a store without the id, the rest arbitrary re-submissions with any
payloads — leave the store as it was after the first insertion, keep the
single stored record equal to the first call's job, return a "queued" ACK
for every such call, and in general every call against an existing record
leaves the store untouched and returns the status determined by the
record's state (queued/sending ↦ "queued", confirmed ↦ "confirmed",
failed ↦ "failed"). -/
theorem submit_idempotent (s : BrokerStore) (cid : String) (b : BookingData)
    (n : NotifyData) (t : Int) (rest : List (BookingData × NotifyData × Int))
    (h : get_booking_job s cid = .ok none) :
    submitSeq s cid ((b, n, t) :: rest) =
      (persist_booking_job s (mkJob cid b n t),
       Msg.bookingAck cid "queued" ::
         rest.map (fun _ => Msg.bookingAck cid "queued")) ∧
    get_booking_job (submitSeq s cid ((b, n, t) :: rest)).1 cid =
      .ok (some (mkJob cid b n t)) ∧
    (∀ (s2 : BrokerStore) (j : BookingJob) (b2 : BookingData) (n2 : NotifyData)
        (t2 : Int), get_booking_job s2 cid = .ok (some j) →
      handle_submit_booking s2 cid b2 n2 t2 =
        .ok (s2, Msg.bookingAck cid (ackStatus j.state))) ∧
    ackStatus JobState.queued = "queued" ∧
    ackStatus JobState.sending = "queued" ∧
    ackStatus JobState.confirmed = "confirmed" ∧
    ackStatus JobState.failed = "failed" := by
  have hfresh := handle_submit_fresh s cid b n t h
  have hget := get_after_persist_fresh s cid b n t h
  have hseq : submitSeq s cid ((b, n, t) :: rest) =
      (persist_booking_job s (mkJob cid b n t),
       Msg.bookingAck cid "queued" ::
         rest.map (fun _ => Msg.bookingAck cid "queued")) := by
    simp only [submitSeq, hfresh]
    rw [submitSeq_existing cid (mkJob cid b n t) rest _ hget]
    rfl
  refine ⟨hseq, ?_, ?_, rfl, rfl, rfl, rfl⟩
  · rw [hseq]
    exact hget
  · intro s2 j b2 n2 t2 h2
    exact handle_submit_existing s2 cid b2 n2 t2 j h2

set_option maxRecDepth 8000 in
theorem submit_idempotent_witness :
    get_booking_job emptyStore "c1" = .ok none ∧
    submitSeq emptyStore "c1"
        [(sampleBooking, sampleNotify, 5), (sampleBooking, sampleNotify, 9)] =
      (persist_booking_job emptyStore (mkJob "c1" sampleBooking sampleNotify 5),
       [Msg.bookingAck "c1" "queued", Msg.bookingAck "c1" "queued"]) :=
  ⟨rfl,
    (submit_idempotent emptyStore "c1" sampleBooking sampleNotify 5
      [(sampleBooking, sampleNotify, 9)] rfl).1⟩

/-! ### C2: persist before ack -/

theorem quadPrefixCases {α : Type} (xs : List α) (a b c d : α)
    (h : xs <+: [a, b, c, d]) :
    xs = [] ∨ xs = [a] ∨ xs = [a, b] ∨ xs = [a, b, c] ∨ xs = [a, b, c, d] := by
  obtain ⟨t, ht⟩ := h
  rcases xs with _ | ⟨x1, _ | ⟨x2, _ | ⟨x3, _ | ⟨x4, rest⟩⟩⟩⟩
  · exact Or.inl rfl
  all_goals simp_all

theorem persist_booking_job_fresh_eq (s : BrokerStore) (cid : String)
    (b : BookingData) (n : NotifyData) (now : Int)
    (h : get_booking_job s cid = .ok none) :
    persist_booking_job s (mkJob cid b n now) =
      (applyMicros ⟨s, s⟩ (submitMicros cid b n now)).mem := by
  have hg := get_booking_job_none_treeGet s cid h
  unfold persist_booking_job treeContains
  rw [show (mkJob cid b n now).correlation_id = cid from rfl, hg]
  simp only [Option.isSome_none, Bool.false_eq_true, if_false]
  unfold submitMicros applyMicros
  simp only [List.foldl_cons, List.foldl_nil, applyMicro, update_job_index]
  rw [if_pos (show (mkJob cid b n now).state = JobState.queued from rfl)]
  rfl

/-- Claim C2: for a fresh correlation id, `handle_submit_booking` performs
exactly the micro-operation sequence insert-record, insert-index, flush,
ACK; whenever the "queued" ACK has been produced the record is already on
disk (readable after a simulated restart) with state Queued, attempts 0,
`next_attempt_at = now`, and the submitted payloads; and in every prefix of
the sequence the ACK only appears after the flush, so a crash before the
flush produces no ACK. -/
theorem persist_before_ack (s : BrokerStore) (cid : String) (b : BookingData)
    (n : NotifyData) (now : Int) (h : get_booking_job s cid = .ok none) :
    handle_submit_booking s cid b n now =
      .ok ((applyMicros ⟨s, s⟩ (submitMicros cid b n now)).mem,
           Msg.bookingAck cid "queued") ∧
    get_booking_job (applyMicros ⟨s, s⟩ (submitMicros cid b n now)).disk cid =
      .ok (some (mkJob cid b n now)) ∧
    (mkJob cid b n now).state = JobState.queued ∧
    (mkJob cid b n now).attempts = 0 ∧
    (mkJob cid b n now).next_attempt_at = now ∧
    (mkJob cid b n now).booking_json = bookingToJson b ∧
    (mkJob cid b n now).notify_json = notifyToJson n ∧
    (∀ pre, pre <+: submitMicros cid b n now →
      MicroOp.ackOut (Msg.bookingAck cid "queued") ∈ pre →
      MicroOp.flushDb ∈ pre) ∧
    (∀ pre, pre <+: submitMicros cid b n now →
      MicroOp.ackOut (Msg.bookingAck cid "queued") ∈ pre →
      get_booking_job (applyMicros ⟨s, s⟩ pre).disk cid =
        .ok (some (mkJob cid b n now))) := by
  have hg := get_booking_job_none_treeGet s cid h
  have hdisk : get_booking_job
      (applyMicros ⟨s, s⟩ (submitMicros cid b n now)).disk cid =
      .ok (some (mkJob cid b n now)) := by
    unfold submitMicros applyMicros
    simp only [List.foldl_cons, List.foldl_nil, applyMicro]
    unfold get_booking_job
    have hne : cid ≠ jobIndexKey (mkJob cid b n now) := by
      intro he
      exact jobIndexKey_ne (mkJob cid b n now) cid rfl he.symm
    rw [show (mkJob cid b n now).correlation_id = cid from rfl,
      treeGet_insert_ne _ _ _ _ hne, treeGet_insert_self]
  refine ⟨?_, hdisk, rfl, rfl, rfl, rfl, rfl, ?_, ?_⟩
  · rw [handle_submit_fresh s cid b n now h,
      persist_booking_job_fresh_eq s cid b n now h]
  · intro pre hpre hack
    rcases quadPrefixCases pre _ _ _ _ hpre with h0 | h1 | h2 | h3 | h4 <;>
      subst_vars <;> simp_all
  · intro pre hpre hack
    rcases quadPrefixCases pre _ _ _ _ hpre with h0 | h1 | h2 | h3 | h4
    · subst h0; simp at hack
    · subst h1; simp at hack
    · subst h2; simp at hack
    · subst h3; simp at hack
    · subst h4; exact hdisk

theorem persist_before_ack_witness :
    get_booking_job emptyStore "c1" = .ok none ∧
    get_booking_job
        (applyMicros ⟨emptyStore, emptyStore⟩
          (submitMicros "c1" sampleBooking sampleNotify 5)).disk "c1" =
      .ok (some (mkJob "c1" sampleBooking sampleNotify 5)) :=
  ⟨rfl,
    (persist_before_ack emptyStore "c1" sampleBooking sampleNotify 5 rfl).2.1⟩

/-! ### Key order and sorted-tree facts -/

theorem keyLtChars_trans : ∀ (a b c : List Char), keyLtChars a b = true →
    keyLtChars b c = true → keyLtChars a c = true := by
  intro a
  induction a with
  | nil =>
    intro b c h1 h2
    cases b with
    | nil => simp [keyLtChars] at h1
    | cons y ys =>
      cases c with
      | nil => simp [keyLtChars] at h2
      | cons z zs => simp [keyLtChars]
  | cons x xs ih =>
    intro b c h1 h2
    cases b with
    | nil => simp [keyLtChars] at h1
    | cons y ys =>
      cases c with
      | nil => simp [keyLtChars] at h2
      | cons z zs =>
        simp only [keyLtChars] at h1 h2 ⊢
        by_cases hxy : x.val.toNat < y.val.toNat
        · by_cases hyz : y.val.toNat < z.val.toNat
          · rw [if_pos (by omega)]
          · by_cases hzy : z.val.toNat < y.val.toNat
            · rw [if_neg hyz, if_pos hzy] at h2
              simp at h2
            · rw [if_pos (by omega)]
        · by_cases hyx : y.val.toNat < x.val.toNat
          · rw [if_neg hxy, if_pos hyx] at h1
            simp at h1
          · rw [if_neg hxy, if_neg hyx] at h1
            by_cases hyz : y.val.toNat < z.val.toNat
            · rw [if_pos (by omega)]
            · by_cases hzy : z.val.toNat < y.val.toNat
              · rw [if_neg hyz, if_pos hzy] at h2
                simp at h2
              · rw [if_neg hyz, if_neg hzy] at h2
                rw [if_neg (by omega : ¬ x.val.toNat < z.val.toNat),
                  if_neg (by omega : ¬ z.val.toNat < x.val.toNat)]
                exact ih ys zs h1 h2

theorem keyLtChars_or : ∀ (a b : List Char),
    keyLtChars a b = true ∨ a = b ∨ keyLtChars b a = true := by
  intro a
  induction a with
  | nil =>
    intro b
    cases b with
    | nil => exact Or.inr (Or.inl rfl)
    | cons y ys => exact Or.inl (by simp [keyLtChars])
  | cons x xs ih =>
    intro b
    cases b with
    | nil => exact Or.inr (Or.inr (by simp [keyLtChars]))
    | cons y ys =>
      by_cases hxy : x.val.toNat < y.val.toNat
      · exact Or.inl (by simp [keyLtChars, hxy])
      · by_cases hyx : y.val.toNat < x.val.toNat
        · exact Or.inr (Or.inr (by simp [keyLtChars, hyx]))
        · have hx : x = y := Char.ext (UInt32.ext (by omega))
          subst hx
          rcases ih ys with h | h | h
          · exact Or.inl (by simp [keyLtChars, Nat.lt_irrefl, h])
          · exact Or.inr (Or.inl (by rw [h]))
          · exact Or.inr (Or.inr (by simp [keyLtChars, Nat.lt_irrefl, h]))

theorem keyLt_trans (a b c : String) (h1 : keyLt a b = true)
    (h2 : keyLt b c = true) : keyLt a c = true :=
  keyLtChars_trans a.data b.data c.data h1 h2

theorem keyLt_or (a b : String) : keyLt a b = true ∨ a = b ∨ keyLt b a = true := by
  rcases keyLtChars_or a.data b.data with h | h | h
  · exact Or.inl h
  · exact Or.inr (Or.inl (String.ext h))
  · exact Or.inr (Or.inr h)

theorem mem_treeInsert {α : Type} :
    ∀ (t : Tree α) (k : String) (v : TreeVal α) (q : String × TreeVal α),
      q ∈ treeInsert t k v → q = (k, v) ∨ q ∈ t := by
  intro t
  induction t with
  | nil =>
    intro k v q h
    simp [treeInsert] at h
    exact Or.inl h
  | cons p rest ih =>
    intro k v q h
    obtain ⟨k2, v2⟩ := p
    simp only [treeInsert] at h
    by_cases h1 : keyLt k k2
    · rw [if_pos h1] at h
      rcases List.mem_cons.mp h with rfl | h2
      · exact Or.inl rfl
      · exact Or.inr h2
    · by_cases h2 : k = k2
      · rw [if_neg h1, if_pos h2] at h
        rcases List.mem_cons.mp h with rfl | h3
        · exact Or.inl rfl
        · exact Or.inr (List.mem_cons_of_mem _ h3)
      · rw [if_neg h1, if_neg h2] at h
        rcases List.mem_cons.mp h with rfl | h3
        · exact Or.inr (List.mem_cons_self _ _)
        · rcases ih k v q h3 with h4 | h4
          · exact Or.inl h4
          · exact Or.inr (List.mem_cons_of_mem _ h4)

theorem treeInsert_sorted {α : Type} :
    ∀ (t : Tree α) (k : String) (v : TreeVal α), TreeSorted t →
      TreeSorted (treeInsert t k v) := by
  intro t
  induction t with
  | nil =>
    intro k v _
    simp [treeInsert, TreeSorted]
  | cons p rest ih =>
    intro k v h
    obtain ⟨k2, v2⟩ := p
    rcases List.pairwise_cons.mp h with ⟨hhead, htail⟩
    simp only [treeInsert]
    by_cases h1 : keyLt k k2
    · rw [if_pos h1]
      refine List.Pairwise.cons ?_ h
      intro q hq
      rcases List.mem_cons.mp hq with rfl | hq2
      · exact h1
      · exact keyLt_trans _ _ _ h1 (hhead q hq2)
    · by_cases h2 : k = k2
      · rw [if_neg h1, if_pos h2]
        subst h2
        exact List.Pairwise.cons hhead htail
      · rw [if_neg h1, if_neg h2]
        refine List.Pairwise.cons ?_ (ih k v htail)
        intro q hq
        rcases mem_treeInsert rest k v q hq with rfl | hq2
        · rcases keyLt_or k k2 with hlt | heq | hgt
          · exact absurd hlt h1
          · exact absurd heq h2
          · exact hgt
        · exact hhead q hq2

theorem treeGet_of_mem_sorted {α : Type} :
    ∀ (t : Tree α), TreeSorted t → ∀ (k : String) (v : TreeVal α),
      (k, v) ∈ t → treeGet t k = some v := by
  intro t
  induction t with
  | nil =>
    intro _ k v hm
    simp at hm
  | cons p rest ih =>
    intro hs k v hm
    obtain ⟨k2, v2⟩ := p
    rcases List.pairwise_cons.mp hs with ⟨hhead, htail⟩
    rcases List.mem_cons.mp hm with he | hm2
    · rw [Prod.mk.injEq] at he
      obtain ⟨rfl, rfl⟩ := he
      simp [treeGet]
    · have hlt := hhead (k, v) hm2
      have hne : k ≠ k2 := by
        intro he
        subst he
        rw [keyLt_irrefl] at hlt
        simp at hlt
      simp only [treeGet, if_neg hne]
      exact ih htail k v hm2

theorem WFTree_insert_stored {α : Type} (cidOf : α → String) (t : Tree α)
    (k : String) (a : α) (h : WFTree cidOf t) (hk : cidOf a = k) :
    WFTree cidOf (treeInsert t k (.stored a)) := by
  refine ⟨?_, treeInsert_sorted t k _ h.2⟩
  intro p hp a2 hpa
  rcases mem_treeInsert t k _ p hp with rfl | hp2
  · simp only at hpa
    cases hpa
    exact hk
  · exact h.1 p hp2 a2 hpa

theorem WFTree_insert_idx {α : Type} (cidOf : α → String) (t : Tree α)
    (k : String) (h : WFTree cidOf t) : WFTree cidOf (treeInsert t k .idx) := by
  refine ⟨?_, treeInsert_sorted t k _ h.2⟩
  intro p hp a2 hpa
  rcases mem_treeInsert t k _ p hp with rfl | hp2
  · simp at hpa
  · exact h.1 p hp2 a2 hpa

theorem WFStore_empty : WFStore emptyStore :=
  ⟨⟨by intro p hp; simp [emptyStore] at hp, by simp [emptyStore, TreeSorted]⟩,
   ⟨by intro p hp; simp [emptyStore] at hp, by simp [emptyStore, TreeSorted]⟩⟩

/-- Inversion: a successful non-empty read is a stored record in the tree. -/
theorem get_booking_job_some_treeGet (s : BrokerStore) (cid : String)
    (j : BookingJob) (h : get_booking_job s cid = .ok (some j)) :
    treeGet s.booking_jobs cid = some (.stored j) := by
  unfold get_booking_job at h
  cases hg : treeGet s.booking_jobs cid with
  | none => rw [hg] at h; simp at h
  | some v =>
    cases v with
    | stored j2 =>
      rw [hg] at h
      simp only [Except.ok.injEq, Option.some.injEq] at h
      rw [h]
    | idx => rw [hg] at h; simp at h

theorem get_notification_some_treeGet (s : BrokerStore) (cid : String)
    (n : NotificationRecord) (h : get_notification s cid = .ok (some n)) :
    treeGet s.notification_outbox cid = some (.stored n) := by
  unfold get_notification at h
  cases hg : treeGet s.notification_outbox cid with
  | none => rw [hg] at h; simp at h
  | some v =>
    cases v with
    | stored n2 =>
      rw [hg] at h
      simp only [Except.ok.injEq, Option.some.injEq] at h
      rw [h]
    | idx => rw [hg] at h; simp at h

/-- In a well-formed store, a readable record is keyed by its own id. -/
theorem get_booking_job_correlation (s : BrokerStore) (cid : String)
    (j : BookingJob) (hwf : WFStore s)
    (h : get_booking_job s cid = .ok (some j)) : j.correlation_id = cid :=
  hwf.1.1 (cid, .stored j)
    (treeGet_mem _ _ _ (get_booking_job_some_treeGet s cid j h)) j rfl

theorem get_notification_correlation (s : BrokerStore) (cid : String)
    (n : NotificationRecord) (hwf : WFStore s)
    (h : get_notification s cid = .ok (some n)) : n.correlation_id = cid :=
  hwf.2.1 (cid, .stored n)
    (treeGet_mem _ _ _ (get_notification_some_treeGet s cid n h)) n rfl

/-! Well-formedness preservation for every storage operation. -/

theorem WFStore_persist_booking_job (s : BrokerStore) (job : BookingJob)
    (h : WFStore s) : WFStore (persist_booking_job s job) := by
  unfold persist_booking_job
  split
  · exact h
  · refine ⟨?_, h.2⟩
    unfold update_job_index
    split
    · exact WFTree_insert_idx _ _ _
        (WFTree_insert_stored _ _ _ _ h.1 rfl)
    · exact WFTree_insert_stored _ _ _ _ h.1 rfl

theorem WFStore_updatedStore (s : BrokerStore) (cid : String)
    (u : JobStateUpdate) (now : Int) (j : BookingJob) (hwf : WFStore s)
    (hcid : j.correlation_id = cid) : WFStore (updatedStore s cid u now j) := by
  refine ⟨?_, hwf.2⟩
  unfold updatedStore
  simp only
  unfold update_job_index
  split
  · exact WFTree_insert_idx _ _ _
      (WFTree_insert_stored _ _ _ _ hwf.1 hcid)
  · exact WFTree_insert_stored _ _ _ _ hwf.1 hcid

theorem WFStore_update_job_state (s s2 : BrokerStore) (cid : String)
    (u : JobStateUpdate) (now : Int) (hwf : WFStore s)
    (h : update_job_state s cid u now = .ok s2) : WFStore s2 := by
  unfold update_job_state at h
  cases hg : get_booking_job s cid with
  | error e => rw [hg] at h; simp at h
  | ok o =>
    cases o with
    | none => rw [hg] at h; simp at h
    | some j =>
      rw [hg] at h
      simp only [Except.ok.injEq] at h
      have hcid := get_booking_job_correlation s cid j hwf hg
      have := WFStore_updatedStore s cid u now j hwf hcid
      rw [show updatedStore s cid u now j =
        { s with booking_jobs :=
          (update_job_index
            (treeInsert s.booking_jobs cid (.stored (applyUpdate j u now)))
            (applyUpdate j u now)) } from rfl] at this
      rw [← h]
      exact this

theorem WFStore_persist_notification (s : BrokerStore) (n : NotificationRecord)
    (h : WFStore s) : WFStore (persist_notification s n) := by
  unfold persist_notification
  split
  · exact h
  · refine ⟨h.1, ?_⟩
    unfold update_notification_index
    split
    · exact WFTree_insert_idx _ _ _
        (WFTree_insert_stored _ _ _ _ h.2 rfl)
    · exact WFTree_insert_stored _ _ _ _ h.2 rfl

theorem WFStore_update_notification_state (s s2 : BrokerStore) (cid : String)
    (st : NotificationState) (sent : Option Int) (subj body : Option String)
    (now : Int) (hwf : WFStore s)
    (h : update_notification_state s cid st sent subj body now = .ok s2) :
    WFStore s2 := by
  unfold update_notification_state at h
  cases hg : get_notification s cid with
  | error e => rw [hg] at h; simp at h
  | ok o =>
    cases o with
    | none => rw [hg] at h; simp at h
    | some n =>
      rw [hg] at h
      simp only [Except.ok.injEq] at h
      have hcid := get_notification_correlation s cid n hwf hg
      rw [← h]
      refine ⟨hwf.1, ?_⟩
      unfold update_notification_index
      split
      · exact WFTree_insert_idx _ _ _
          (WFTree_insert_stored _ _ _ _ hwf.2 hcid)
      · exact WFTree_insert_stored _ _ _ _ hwf.2 hcid

/-! ### Due-scan soundness -/

theorem mem_insertStable {α : Type} (key : α → Int) (x : α) :
    ∀ (l : List α) (a : α), a ∈ insertStable key x l → a = x ∨ a ∈ l := by
  intro l
  induction l with
  | nil =>
    intro a h
    simp [insertStable] at h
    exact Or.inl h
  | cons y ys ih =>
    intro a h
    simp only [insertStable] at h
    split at h
    · rcases List.mem_cons.mp h with rfl | h2
      · exact Or.inr (List.mem_cons_self _ _)
      · rcases ih a h2 with h3 | h3
        · exact Or.inl h3
        · exact Or.inr (List.mem_cons_of_mem _ h3)
    · rcases List.mem_cons.mp h with rfl | h2
      · exact Or.inl rfl
      · exact Or.inr h2

theorem mem_sortStable_aux {α : Type} (key : α → Int) :
    ∀ (l acc : List α) (a : α),
      a ∈ List.foldl (fun acc2 x => insertStable key x acc2) acc l →
      a ∈ acc ∨ a ∈ l := by
  intro l
  induction l with
  | nil =>
    intro acc a h
    exact Or.inl h
  | cons x xs ih =>
    intro acc a h
    simp only [List.foldl_cons] at h
    rcases ih _ a h with h2 | h2
    · rcases mem_insertStable key x acc a h2 with rfl | h3
      · exact Or.inr (List.mem_cons_self _ _)
      · exact Or.inl h3
    · exact Or.inr (List.mem_cons_of_mem _ h2)

theorem mem_sortStable {α : Type} (key : α → Int) (l : List α) (a : α)
    (h : a ∈ sortStable key l) : a ∈ l := by
  rcases mem_sortStable_aux key l [] a h with h2 | h2
  · simp at h2
  · exact h2

theorem scanDueJobs_sound (now : Int) (limit : Nat) :
    ∀ (t : Tree BookingJob) (acc res : List BookingJob),
      scanDueJobs now limit t acc = .ok res → ∀ j ∈ res,
        j ∈ acc ∨ ∃ k, (k, TreeVal.stored j) ∈ t ∧
          j.state = JobState.queued ∧ j.next_attempt_at ≤ now := by
  intro t
  induction t with
  | nil =>
    intro acc res h j hj
    simp only [scanDueJobs, Except.ok.injEq] at h
    subst h
    exact Or.inl hj
  | cons p rest ih =>
    intro acc res h j hj
    obtain ⟨k, v⟩ := p
    simp only [scanDueJobs] at h
    by_cases hk : k.length > 64
    · rw [if_pos hk] at h
      rcases ih acc res h j hj with h2 | ⟨k2, hm, hq, hd⟩
      · exact Or.inl h2
      · exact Or.inr ⟨k2, List.mem_cons_of_mem _ hm, hq, hd⟩
    · rw [if_neg hk] at h
      cases v with
      | idx => simp at h
      | stored j0 =>
        dsimp only at h
        by_cases hc : j0.state = JobState.queued ∧ j0.next_attempt_at ≤ now ∧
            acc.length < limit
        · rw [if_pos hc] at h
          rcases ih _ res h j hj with h2 | ⟨k2, hm, hq, hd⟩
          · rcases List.mem_append.mp h2 with h3 | h3
            · exact Or.inl h3
            · have : j = j0 := by simpa using h3
              subst this
              exact Or.inr ⟨k, List.mem_cons_self _ _, hc.1, hc.2.1⟩
          · exact Or.inr ⟨k2, List.mem_cons_of_mem _ hm, hq, hd⟩
        · rw [if_neg hc] at h
          rcases ih acc res h j hj with h2 | ⟨k2, hm, hq, hd⟩
          · exact Or.inl h2
          · exact Or.inr ⟨k2, List.mem_cons_of_mem _ hm, hq, hd⟩

theorem get_due_jobs_sound (s : BrokerStore) (now : Int) (limit : Nat)
    (res : List BookingJob) (h : get_due_jobs s now limit = .ok res) :
    ∀ j ∈ res, ∃ k, (k, TreeVal.stored j) ∈ s.booking_jobs ∧
      j.state = JobState.queued ∧ j.next_attempt_at ≤ now := by
  intro j hj
  unfold get_due_jobs at h
  cases hs : scanDueJobs now limit s.booking_jobs [] with
  | error e => rw [hs] at h; simp at h
  | ok jobs =>
    rw [hs] at h
    simp only [Except.ok.injEq] at h
    subst h
    have hj2 := mem_sortStable _ jobs j hj
    rcases scanDueJobs_sound now limit s.booking_jobs [] jobs hs j hj2 with
      h2 | h2
    · simp at h2
    · exact h2

/-- In a well-formed store whose record at `cid` is not queued, no scan
result contains a job with that correlation id. -/
theorem get_due_jobs_excludes (s : BrokerStore) (hwf : WFStore s)
    (cid : String) (jf : BookingJob)
    (hterm : treeGet s.booking_jobs cid = some (.stored jf))
    (hstate : jf.state ≠ JobState.queued) :
    ∀ (now : Int) (limit : Nat) (res : List BookingJob),
      get_due_jobs s now limit = .ok res → ∀ q ∈ res, q.correlation_id ≠ cid := by
  intro now limit res h q hq heq
  obtain ⟨k, hmem, hqd, _⟩ := get_due_jobs_sound s now limit res h q hq
  have hk : q.correlation_id = k := hwf.1.1 (k, .stored q) hmem q rfl
  have hkc : k = cid := by rw [← hk, heq]
  subst hkc
  have hget := treeGet_of_mem_sorted _ hwf.1.2 k (.stored q) hmem
  rw [hterm] at hget
  simp only [Option.some.injEq] at hget
  cases hget
  exact hstate hqd

theorem handle_retry_eq (cfg : ForwarderConfig) (s : BrokerStore)
    (cid : String) (a : Nat) (err : String) (now : Int) (jitter : Nat) :
    handle_retry cfg s cid a err now jitter =
      if a + 1 > cfg.max_retry_attempts
      then update_job_state s cid (failRetryUpdate (a + 1) err) now
      else update_job_state s cid
        (queuedRetryUpdate (a + 1) err
          (now + (calculate_backoff cfg.initial_backoff_ms (a + 1) jitter : Int)))
        now := rfl

/-- Claim C5: a forwarding attempt ending in a network/timeout/body-read
failure for a job with `attempts = a` updates the job to Failed with
`attempts = a+1` and `last_error = "Max retries exceeded: {err}"` when
`a+1 > max_retry_attempts`, and otherwise back to Queued with
`attempts = a+1`, `next_attempt_at = now + backoff`, and `last_error = err`;
after the Failed update, no due-jobs scan of the resulting store ever
returns a job with that correlation id, so no further HTTP attempts occur
for it. -/
theorem handle_retry_spec (cfg : ForwarderConfig) (s : BrokerStore)
    (cid err : String) (now : Int) (jitter : Nat) (j : BookingJob)
    (hwf : WFStore s) (h : get_booking_job s cid = .ok (some j)) :
    (j.attempts + 1 > cfg.max_retry_attempts →
      handle_retry cfg s cid j.attempts err now jitter =
        .ok (updatedStore s cid (failRetryUpdate (j.attempts + 1) err) now j) ∧
      get_booking_job
          (updatedStore s cid (failRetryUpdate (j.attempts + 1) err) now j) cid =
        .ok (some (applyUpdate j (failRetryUpdate (j.attempts + 1) err) now)) ∧
      (applyUpdate j (failRetryUpdate (j.attempts + 1) err) now).state =
        JobState.failed ∧
      (applyUpdate j (failRetryUpdate (j.attempts + 1) err) now).attempts =
        j.attempts + 1 ∧
      (applyUpdate j (failRetryUpdate (j.attempts + 1) err) now).last_error =
        some ("Max retries exceeded: " ++ err) ∧
      (∀ (now2 : Int) (limit : Nat) (res : List BookingJob),
        get_due_jobs
            (updatedStore s cid (failRetryUpdate (j.attempts + 1) err) now j)
            now2 limit = .ok res →
        ∀ q ∈ res, q.correlation_id ≠ cid)) ∧
    (j.attempts + 1 ≤ cfg.max_retry_attempts →
      handle_retry cfg s cid j.attempts err now jitter =
        .ok (updatedStore s cid
          (queuedRetryUpdate (j.attempts + 1) err
            (now + (calculate_backoff cfg.initial_backoff_ms (j.attempts + 1)
              jitter : Int))) now j) ∧
      get_booking_job
          (updatedStore s cid
            (queuedRetryUpdate (j.attempts + 1) err
              (now + (calculate_backoff cfg.initial_backoff_ms (j.attempts + 1)
                jitter : Int))) now j) cid =
        .ok (some (applyUpdate j
          (queuedRetryUpdate (j.attempts + 1) err
            (now + (calculate_backoff cfg.initial_backoff_ms (j.attempts + 1)
              jitter : Int))) now)) ∧
      (applyUpdate j
        (queuedRetryUpdate (j.attempts + 1) err
          (now + (calculate_backoff cfg.initial_backoff_ms (j.attempts + 1)
            jitter : Int))) now).state = JobState.queued ∧
      (applyUpdate j
        (queuedRetryUpdate (j.attempts + 1) err
          (now + (calculate_backoff cfg.initial_backoff_ms (j.attempts + 1)
            jitter : Int))) now).attempts = j.attempts + 1 ∧
      (applyUpdate j
        (queuedRetryUpdate (j.attempts + 1) err
          (now + (calculate_backoff cfg.initial_backoff_ms (j.attempts + 1)
            jitter : Int))) now).last_error = some err ∧
      (applyUpdate j
        (queuedRetryUpdate (j.attempts + 1) err
          (now + (calculate_backoff cfg.initial_backoff_ms (j.attempts + 1)
            jitter : Int))) now).next_attempt_at =
        now + (calculate_backoff cfg.initial_backoff_ms (j.attempts + 1)
          jitter : Int)) := by
  have hcid := get_booking_job_correlation s cid j hwf h
  constructor
  · intro hgt
    have heq : handle_retry cfg s cid j.attempts err now jitter =
        update_job_state s cid (failRetryUpdate (j.attempts + 1) err) now := by
      rw [handle_retry_eq, if_pos hgt]
    refine ⟨?_, get_booking_job_updatedStore s cid _ now j hcid,
      rfl, rfl, rfl, ?_⟩
    · rw [heq, update_job_state_ok s cid _ now j h]
    · have hwf2 := WFStore_updatedStore s cid
        (failRetryUpdate (j.attempts + 1) err) now j hwf hcid
      have hget2 := get_booking_job_some_treeGet _ cid _
        (get_booking_job_updatedStore s cid
          (failRetryUpdate (j.attempts + 1) err) now j hcid)
      exact get_due_jobs_excludes _ hwf2 cid _ hget2 (by simp [applyUpdate, failRetryUpdate])
  · intro hle
    have heq : handle_retry cfg s cid j.attempts err now jitter =
        update_job_state s cid
          (queuedRetryUpdate (j.attempts + 1) err
            (now + (calculate_backoff cfg.initial_backoff_ms (j.attempts + 1)
              jitter : Int))) now := by
      rw [handle_retry_eq, if_neg (by omega)]
    refine ⟨?_, get_booking_job_updatedStore s cid _ now j hcid,
      rfl, rfl, rfl, rfl⟩
    rw [heq, update_job_state_ok s cid _ now j h]

theorem wf_c3Store : WFStore c3Store :=
  WFStore_persist_booking_job emptyStore _ WFStore_empty

theorem handle_retry_spec_witness :
    get_booking_job c3Store "c1" =
      .ok (some (mkJob "c1" sampleBooking sampleNotify 1700000000000)) ∧
    (mkJob "c1" sampleBooking sampleNotify 1700000000000).attempts + 1 >
      (⟨0, 1000⟩ : ForwarderConfig).max_retry_attempts ∧
    handle_retry ⟨0, 1000⟩ c3Store "c1"
        (mkJob "c1" sampleBooking sampleNotify 1700000000000).attempts
        "io error" 9 7 =
      .ok (updatedStore c3Store "c1" (failRetryUpdate 1 "io error") 9
        (mkJob "c1" sampleBooking sampleNotify 1700000000000)) ∧
    (mkJob "c1" sampleBooking sampleNotify 1700000000000).attempts + 1 ≤
      (⟨5, 1000⟩ : ForwarderConfig).max_retry_attempts ∧
    handle_retry ⟨5, 1000⟩ c3Store "c1"
        (mkJob "c1" sampleBooking sampleNotify 1700000000000).attempts
        "io error" 9 7 =
      .ok (updatedStore c3Store "c1"
        (queuedRetryUpdate 1 "io error" (9 + (calculate_backoff 1000 1 7 : Int)))
        9 (mkJob "c1" sampleBooking sampleNotify 1700000000000)) :=
  ⟨rfl, by decide,
    ((handle_retry_spec ⟨0, 1000⟩ c3Store "c1" "io error" 9 7
      (mkJob "c1" sampleBooking sampleNotify 1700000000000)
      wf_c3Store rfl).1 (by decide)).1,
    by decide,
    ((handle_retry_spec ⟨5, 1000⟩ c3Store "c1" "io error" 9 7
      (mkJob "c1" sampleBooking sampleNotify 1700000000000)
      wf_c3Store rfl).2 (by decide)).1⟩

theorem persist_notification_booking_jobs (s : BrokerStore)
    (n : NotificationRecord) :
    (persist_notification s n).booking_jobs = s.booking_jobs := by
  unfold persist_notification
  split <;> rfl

theorem updatedStore_notification_outbox (s : BrokerStore) (cid : String)
    (u : JobStateUpdate) (now : Int) (j : BookingJob) :
    (updatedStore s cid u now j).notification_outbox = s.notification_outbox := rfl

theorem get_notification_persist_fresh (s : BrokerStore) (cid email : String)
    (now : Int) (h : treeGet s.notification_outbox cid = none) :
    get_notification (persist_notification s (mkNotif cid email now)) cid =
      .ok (some (mkNotif cid email now)) := by
  unfold persist_notification treeContains
  rw [show (mkNotif cid email now).correlation_id = cid from rfl, h]
  simp only [Option.isSome_none, Bool.false_eq_true, if_false]
  unfold get_notification update_notification_index
  rw [if_pos (show (mkNotif cid email now).state = NotificationState.pending
    from rfl)]
  have hne : cid ≠ notifIndexKey (mkNotif cid email now) := by
    intro he
    exact notifIndexKey_ne (mkNotif cid email now) cid rfl he.symm
  rw [treeGet_insert_ne _ _ _ _ hne, treeGet_insert_self]

/-- Claim C6: a Central API response with a 2xx status updates the job to
Confirmed with `http_status` the code and `central_response` the body and
then creates the pending notification record; every other status updates
the job to Failed recording `http_status`, `central_response`, and
`last_error = "HTTP {code}: {body}"`, and creates no notification. -/
theorem process_job_response_classification (cfg : ForwarderConfig)
    (s : BrokerStore) (job j : BookingJob) (status : Nat) (body : String)
    (now : Int) (jitter : Nat) (bk nv : Json) (email : String)
    (hwf : WFStore s)
    (h : get_booking_job s job.correlation_id = .ok (some j))
    (hparse : job.booking_json.fromStr = some bk)
    (hnv : job.notify_json.fromStr = some nv)
    (hemail : (nv.get "email").asStr = some email)
    (hnotif : treeGet s.notification_outbox job.correlation_id = none) :
    (isSuccessStatus status →
      process_job cfg s job (.resp status body) now jitter =
        (persist_notification
          (updatedStore (updatedStore s job.correlation_id sendingUpdate now j)
            job.correlation_id (confirmUpdate status body) now
            (applyUpdate j sendingUpdate now))
          (mkNotif job.correlation_id email now), true) ∧
      get_booking_job
          (persist_notification
            (updatedStore (updatedStore s job.correlation_id sendingUpdate now j)
              job.correlation_id (confirmUpdate status body) now
              (applyUpdate j sendingUpdate now))
            (mkNotif job.correlation_id email now)) job.correlation_id =
        .ok (some (applyUpdate (applyUpdate j sendingUpdate now)
          (confirmUpdate status body) now)) ∧
      (applyUpdate (applyUpdate j sendingUpdate now)
        (confirmUpdate status body) now).state = JobState.confirmed ∧
      (applyUpdate (applyUpdate j sendingUpdate now)
        (confirmUpdate status body) now).http_status = some status ∧
      (applyUpdate (applyUpdate j sendingUpdate now)
        (confirmUpdate status body) now).central_response_json = some body ∧
      get_notification
          (persist_notification
            (updatedStore (updatedStore s job.correlation_id sendingUpdate now j)
              job.correlation_id (confirmUpdate status body) now
              (applyUpdate j sendingUpdate now))
            (mkNotif job.correlation_id email now)) job.correlation_id =
        .ok (some (mkNotif job.correlation_id email now))) ∧
    (¬ isSuccessStatus status →
      process_job cfg s job (.resp status body) now jitter =
        (updatedStore (updatedStore s job.correlation_id sendingUpdate now j)
          job.correlation_id (failHttpUpdate status body) now
          (applyUpdate j sendingUpdate now), true) ∧
      get_booking_job
          (updatedStore (updatedStore s job.correlation_id sendingUpdate now j)
            job.correlation_id (failHttpUpdate status body) now
            (applyUpdate j sendingUpdate now)) job.correlation_id =
        .ok (some (applyUpdate (applyUpdate j sendingUpdate now)
          (failHttpUpdate status body) now)) ∧
      (applyUpdate (applyUpdate j sendingUpdate now)
        (failHttpUpdate status body) now).state = JobState.failed ∧
      (applyUpdate (applyUpdate j sendingUpdate now)
        (failHttpUpdate status body) now).http_status = some status ∧
      (applyUpdate (applyUpdate j sendingUpdate now)
        (failHttpUpdate status body) now).central_response_json = some body ∧
      (applyUpdate (applyUpdate j sendingUpdate now)
        (failHttpUpdate status body) now).last_error =
        some ("HTTP " ++ toString status ++ ": " ++ body) ∧
      (updatedStore (updatedStore s job.correlation_id sendingUpdate now j)
        job.correlation_id (failHttpUpdate status body) now
        (applyUpdate j sendingUpdate now)).notification_outbox =
        s.notification_outbox) := by
  have hcid := get_booking_job_correlation s job.correlation_id j hwf h
  have hget1 : get_booking_job
      (updatedStore s job.correlation_id sendingUpdate now j)
      job.correlation_id = .ok (some (applyUpdate j sendingUpdate now)) :=
    get_booking_job_updatedStore s job.correlation_id sendingUpdate now j hcid
  have hcid1 : (applyUpdate j sendingUpdate now).correlation_id =
      job.correlation_id := by
    rw [applyUpdate_correlation_id, hcid]
  constructor
  · intro hst
    have hres : process_job cfg s job (.resp status body) now jitter =
        (persist_notification
          (updatedStore (updatedStore s job.correlation_id sendingUpdate now j)
            job.correlation_id (confirmUpdate status body) now
            (applyUpdate j sendingUpdate now))
          (mkNotif job.correlation_id email now), true) := by
      unfold process_job
      dsimp only
      rw [update_job_state_ok s job.correlation_id sendingUpdate now j h]
      dsimp only
      rw [hparse]
      dsimp only
      rw [if_pos hst]
      rw [update_job_state_ok _ job.correlation_id _ now
        (applyUpdate j sendingUpdate now) hget1]
      dsimp only
      unfold create_notification
      rw [hnv]
      dsimp only
      rw [hemail]
      dsimp only
      rfl
    refine ⟨hres, ?_, rfl, rfl, rfl, ?_⟩
    · unfold get_booking_job
      rw [persist_notification_booking_jobs]
      exact get_booking_job_updatedStore _ job.correlation_id _ now _ hcid1
    · exact get_notification_persist_fresh _ job.correlation_id email now hnotif
  · intro hst
    have hres : process_job cfg s job (.resp status body) now jitter =
        (updatedStore (updatedStore s job.correlation_id sendingUpdate now j)
          job.correlation_id (failHttpUpdate status body) now
          (applyUpdate j sendingUpdate now), true) := by
      unfold process_job
      dsimp only
      rw [update_job_state_ok s job.correlation_id sendingUpdate now j h]
      dsimp only
      rw [hparse]
      dsimp only
      rw [if_neg hst]
      rw [update_job_state_ok _ job.correlation_id _ now
        (applyUpdate j sendingUpdate now) hget1]
      rfl
    refine ⟨hres, ?_, rfl, rfl, rfl, rfl, rfl⟩
    exact get_booking_job_updatedStore _ job.correlation_id _ now _ hcid1

theorem process_job_response_classification_witness :
    get_booking_job c3Store
        (mkJob "c1" sampleBooking sampleNotify 1700000000000).correlation_id =
      .ok (some (mkJob "c1" sampleBooking sampleNotify 1700000000000)) ∧
    isSuccessStatus 200 ∧ ¬ isSuccessStatus 422 ∧
    process_job ⟨10, 1000⟩ c3Store
        (mkJob "c1" sampleBooking sampleNotify 1700000000000)
        (.resp 200 "ok-42") 9 7 =
      (persist_notification
        (updatedStore
          (updatedStore c3Store "c1" sendingUpdate 9
            (mkJob "c1" sampleBooking sampleNotify 1700000000000))
          "c1" (confirmUpdate 200 "ok-42") 9
          (applyUpdate (mkJob "c1" sampleBooking sampleNotify 1700000000000)
            sendingUpdate 9))
        (mkNotif "c1" "a@x.io" 9), true) ∧
    process_job ⟨10, 1000⟩ c3Store
        (mkJob "c1" sampleBooking sampleNotify 1700000000000)
        (.resp 422 "bad date") 9 7 =
      (updatedStore
        (updatedStore c3Store "c1" sendingUpdate 9
          (mkJob "c1" sampleBooking sampleNotify 1700000000000))
        "c1" (failHttpUpdate 422 "bad date") 9
        (applyUpdate (mkJob "c1" sampleBooking sampleNotify 1700000000000)
          sendingUpdate 9), true) :=
  ⟨rfl, by decide, by decide,
    ((process_job_response_classification ⟨10, 1000⟩ c3Store
      (mkJob "c1" sampleBooking sampleNotify 1700000000000)
      (mkJob "c1" sampleBooking sampleNotify 1700000000000) 200 "ok-42" 9 7
      (bookingToJson sampleBooking) (notifyToJson sampleNotify) "a@x.io"
      wf_c3Store rfl rfl rfl rfl rfl).1 (by decide)).1,
    ((process_job_response_classification ⟨10, 1000⟩ c3Store
      (mkJob "c1" sampleBooking sampleNotify 1700000000000)
      (mkJob "c1" sampleBooking sampleNotify 1700000000000) 422 "bad date" 9 7
      (bookingToJson sampleBooking) (notifyToJson sampleNotify) "a@x.io"
      wf_c3Store rfl rfl rfl rfl rfl).2 (by decide)).1⟩

/-! ### Scan results are duplicate-free in well-formed stores -/

theorem insertStable_perm {α : Type} (key : α → Int) (x : α) :
    ∀ (l : List α), (insertStable key x l).Perm (x :: l) := by
  intro l
  induction l with
  | nil => simp [insertStable]
  | cons y ys ih =>
    simp only [insertStable]
    split
    · exact ((ih.cons y).trans (List.Perm.swap x y ys)).symm.symm
    · exact List.Perm.refl _

theorem sortStable_perm_aux {α : Type} (key : α → Int) :
    ∀ (l acc : List α),
      (List.foldl (fun acc2 x => insertStable key x acc2) acc l).Perm (acc ++ l) := by
  intro l
  induction l with
  | nil => intro acc; simp
  | cons x xs ih =>
    intro acc
    simp only [List.foldl_cons]
    have h1 := ih (insertStable key x acc)
    have h3 : (insertStable key x acc).Perm (x :: acc) := insertStable_perm key x acc
    have h4 : ((x :: acc) ++ xs).Perm (acc ++ x :: xs) := by
      simpa using (@List.perm_middle _ x acc xs).symm
    exact h1.trans ((h3.append_right xs).trans h4)

theorem sortStable_perm {α : Type} (key : α → Int) (l : List α) :
    (sortStable key l).Perm l := by
  have := sortStable_perm_aux key l []
  simpa [sortStable] using this

theorem scanDueJobs_pairwise (now : Int) (limit : Nat) :
    ∀ (t : Tree BookingJob), TreeSorted t →
      (∀ p ∈ t, ∀ jj : BookingJob, p.2 = TreeVal.stored jj →
        jj.correlation_id = p.1) →
      ∀ (acc res : List BookingJob),
        acc.Pairwise (fun a b => a.correlation_id ≠ b.correlation_id) →
        (∀ a ∈ acc, ∀ p ∈ t, keyLt a.correlation_id p.1 = true) →
        scanDueJobs now limit t acc = .ok res →
        res.Pairwise (fun a b => a.correlation_id ≠ b.correlation_id) := by
  intro t
  induction t with
  | nil =>
    intro _ _ acc res hacc _ h
    simp only [scanDueJobs, Except.ok.injEq] at h
    subst h
    exact hacc
  | cons p rest ih =>
    intro hs hwf acc res hacc hlt h
    obtain ⟨k, v⟩ := p
    rcases List.pairwise_cons.mp hs with ⟨hhead, htail⟩
    simp only [scanDueJobs] at h
    by_cases hk : k.length > 64
    · rw [if_pos hk] at h
      exact ih htail (fun p hp => hwf p (List.mem_cons_of_mem _ hp)) acc res hacc
        (fun a ha p hp => hlt a ha p (List.mem_cons_of_mem _ hp)) h
    · rw [if_neg hk] at h
      cases v with
      | idx => simp at h
      | stored j0 =>
        dsimp only at h
        have hj0 : j0.correlation_id = k :=
          hwf (k, .stored j0) (List.mem_cons_self _ _) j0 rfl
        by_cases hc : j0.state = JobState.queued ∧ j0.next_attempt_at ≤ now ∧
            acc.length < limit
        · rw [if_pos hc] at h
          refine ih htail (fun p hp => hwf p (List.mem_cons_of_mem _ hp))
            (acc ++ [j0]) res ?_ ?_ h
          · rw [List.pairwise_append]
            refine ⟨hacc, List.pairwise_singleton _ _, ?_⟩
            intro a ha b hb
            have hb2 : b = j0 := by simpa using hb
            rw [hb2]
            have := hlt a ha (k, .stored j0) (List.mem_cons_self _ _)
            intro heq
            rw [heq, hj0] at this
            rw [keyLt_irrefl] at this
            simp at this
          · intro a ha p hp
            rcases List.mem_append.mp ha with ha2 | ha2
            · exact hlt a ha2 p (List.mem_cons_of_mem _ hp)
            · have ha3 : a = j0 := by simpa using ha2
              subst ha3
              rw [hj0]
              exact hhead p hp
        · rw [if_neg hc] at h
          exact ih htail (fun p hp => hwf p (List.mem_cons_of_mem _ hp)) acc res
            hacc (fun a ha p hp => hlt a ha p (List.mem_cons_of_mem _ hp)) h

theorem get_due_jobs_pairwise (s : BrokerStore) (hwf : WFStore s) (now : Int)
    (limit : Nat) (res : List BookingJob) (h : get_due_jobs s now limit = .ok res) :
    res.Pairwise (fun a b => a.correlation_id ≠ b.correlation_id) := by
  unfold get_due_jobs at h
  cases hs : scanDueJobs now limit s.booking_jobs [] with
  | error e => rw [hs] at h; simp at h
  | ok jobs =>
    rw [hs] at h
    simp only [Except.ok.injEq] at h
    subst h
    have hp := scanDueJobs_pairwise now limit s.booking_jobs hwf.1.2 hwf.1.1 []
      jobs (List.Pairwise.nil) (by intro a ha; simp at ha) hs
    have hperm := sortStable_perm (fun j : BookingJob => j.next_attempt_at) jobs
    exact (List.Perm.pairwise_iff (fun h2 => Ne.symm h2) hperm).mpr hp

/-! ### Operation inversion and effect lemmas -/

theorem update_job_state_ok_inv (s s2 : BrokerStore) (cid : String)
    (u : JobStateUpdate) (now : Int)
    (h : update_job_state s cid u now = .ok s2) :
    ∃ jx, get_booking_job s cid = .ok (some jx) ∧
      s2 = updatedStore s cid u now jx := by
  unfold update_job_state at h
  cases hg : get_booking_job s cid with
  | error e => rw [hg] at h; simp at h
  | ok o =>
    cases o with
    | none => rw [hg] at h; simp at h
    | some jx =>
      rw [hg] at h
      simp only [Except.ok.injEq] at h
      exact ⟨jx, rfl, h.symm⟩

theorem update_job_state_outbox (s s2 : BrokerStore) (cid : String)
    (u : JobStateUpdate) (now : Int)
    (h : update_job_state s cid u now = .ok s2) :
    s2.notification_outbox = s.notification_outbox := by
  obtain ⟨jx, _, rfl⟩ := update_job_state_ok_inv s s2 cid u now h
  rfl

theorem handle_retry_ok_inv (cfg : ForwarderConfig) (s s2 : BrokerStore)
    (cid : String) (a : Nat) (err : String) (now : Int) (jitter : Nat)
    (h : handle_retry cfg s cid a err now jitter = .ok s2) :
    ∃ u jx, get_booking_job s cid = .ok (some jx) ∧
      s2 = updatedStore s cid u now jx := by
  rw [handle_retry_eq] at h
  split at h
  · obtain ⟨jx, hg, he⟩ := update_job_state_ok_inv _ _ _ _ _ h
    exact ⟨_, jx, hg, he⟩
  · obtain ⟨jx, hg, he⟩ := update_job_state_ok_inv _ _ _ _ _ h
    exact ⟨_, jx, hg, he⟩

theorem create_notification_ok_inv (s s3 : BrokerStore) (cid : String)
    (notify_json : Json) (now : Int)
    (h : create_notification s cid notify_json now = .ok s3) :
    ∃ nv email, notify_json.fromStr = some nv ∧
      (nv.get "email").asStr = some email ∧
      s3 = persist_notification s (mkNotif cid email now) := by
  unfold create_notification at h
  cases hnv : notify_json.fromStr with
  | none => rw [hnv] at h; simp at h
  | some nv =>
    rw [hnv] at h
    dsimp only at h
    cases he : (nv.get "email").asStr with
    | none => rw [he] at h; simp at h
    | some email =>
      rw [he] at h
      simp only [Except.ok.injEq] at h
      exact ⟨nv, email, rfl, he, h.symm⟩

theorem persist_notification_outbox_ne (s : BrokerStore)
    (n : NotificationRecord) (k : String) (hk1 : k ≠ n.correlation_id)
    (hk2 : k ≠ notifIndexKey n) :
    treeGet (persist_notification s n).notification_outbox k =
      treeGet s.notification_outbox k := by
  unfold persist_notification
  split
  · rfl
  · simp only
    rw [treeGet_update_notification_index_ne _ _ _ hk2,
      treeGet_insert_ne _ _ _ _ hk1]

theorem update_notification_state_booking (s s2 : BrokerStore) (cid : String)
    (st : NotificationState) (sent : Option Int) (subj body : Option String)
    (now : Int) (h : update_notification_state s cid st sent subj body now = .ok s2) :
    s2.booking_jobs = s.booking_jobs := by
  unfold update_notification_state at h
  cases hg : get_notification s cid with
  | error e => rw [hg] at h; simp at h
  | ok o =>
    cases o with
    | none => rw [hg] at h; simp at h
    | some n =>
      rw [hg] at h
      simp only [Except.ok.injEq] at h
      rw [← h]

theorem process_notification_booking (s : BrokerStore)
    (notif : NotificationRecord) (now : Int) :
    (process_notification s notif now).1.booking_jobs = s.booking_jobs := by
  unfold process_notification
  cases hg : get_booking_job s notif.correlation_id with
  | error e => rfl
  | ok o =>
    cases o with
    | none => rfl
    | some job =>
      dsimp only
      split
      · rfl
      · cases hb : build_email job with
        | error e => rfl
        | ok sb =>
          dsimp only
          cases hu : update_notification_state s notif.correlation_id
              NotificationState.simulatedSent (some now) (some sb.1)
              (some sb.2) now with
          | error e => rfl
          | ok s1 =>
            dsimp only
            exact update_notification_state_booking _ _ _ _ _ _ _ _ hu

theorem processNotifList_booking (now : Int) :
    ∀ (notifs : List NotificationRecord) (s : BrokerStore),
      (processNotifList now s notifs).booking_jobs = s.booking_jobs := by
  intro notifs
  induction notifs with
  | nil => intro s; rfl
  | cons notif rest ih =>
    intro s
    simp only [processNotifList]
    rw [ih, process_notification_booking]

theorem process_due_notifications_booking (s : BrokerStore) (now : Int) :
    (process_due_notifications s now).booking_jobs = s.booking_jobs := by
  unfold process_due_notifications
  split
  · rfl
  · exact processNotifList_booking now _ s

/-! Well-formedness is preserved by every operation and every step. -/

theorem WFStore_handle_retry (cfg : ForwarderConfig) (s s2 : BrokerStore)
    (cid : String) (a : Nat) (err : String) (now : Int) (jitter : Nat)
    (hwf : WFStore s) (h : handle_retry cfg s cid a err now jitter = .ok s2) :
    WFStore s2 := by
  rw [handle_retry_eq] at h
  split at h
  · exact WFStore_update_job_state s s2 cid _ now hwf h
  · exact WFStore_update_job_state s s2 cid _ now hwf h

theorem WFStore_create_notification (s s3 : BrokerStore) (cid : String)
    (notify_json : Json) (now : Int) (hwf : WFStore s)
    (h : create_notification s cid notify_json now = .ok s3) : WFStore s3 := by
  obtain ⟨nv, email, _, _, rfl⟩ := create_notification_ok_inv s s3 cid notify_json now h
  exact WFStore_persist_notification s _ hwf

theorem WFStore_process_job (cfg : ForwarderConfig) (s : BrokerStore)
    (job : BookingJob) (out : HttpOutcome) (now : Int) (jit : Nat)
    (hwf : WFStore s) : WFStore (process_job cfg s job out now jit).1 := by
  unfold process_job
  dsimp only
  cases h1 : update_job_state s job.correlation_id sendingUpdate now with
  | error e => exact hwf
  | ok s1 =>
    have hwf1 := WFStore_update_job_state s s1 _ _ now hwf h1
    dsimp only
    cases hp : job.booking_json.fromStr with
    | none => exact hwf1
    | some bk =>
      dsimp only
      cases out with
      | resp status body =>
        dsimp only
        split
        · cases h2 : update_job_state s1 job.correlation_id
              { state := JobState.confirmed, attempts := none,
                next_attempt_at := none, last_error := none,
                http_status := some status,
                central_response_json := some body } now with
          | error e => exact hwf1
          | ok s2 =>
            have hwf2 := WFStore_update_job_state s1 s2 _ _ now hwf1 h2
            dsimp only
            cases h3 : create_notification s2 job.correlation_id
                job.notify_json now with
            | error e => exact hwf2
            | ok s3 =>
              exact WFStore_create_notification s2 s3 _ _ now hwf2 h3
        · cases h2 : update_job_state s1 job.correlation_id
              { state := JobState.failed, attempts := none,
                next_attempt_at := none,
                last_error := some ("HTTP " ++ toString status ++ ": " ++ body),
                http_status := some status,
                central_response_json := some body } now with
          | error e => exact hwf1
          | ok s2 => exact WFStore_update_job_state s1 s2 _ _ now hwf1 h2
      | bodyReadErr e =>
        dsimp only
        cases h2 : handle_retry cfg s1 job.correlation_id job.attempts e now jit with
        | error e2 => exact hwf1
        | ok s2 => exact WFStore_handle_retry cfg s1 s2 _ _ _ now jit hwf1 h2
      | netErr e =>
        dsimp only
        cases h2 : handle_retry cfg s1 job.correlation_id job.attempts e now jit with
        | error e2 => exact hwf1
        | ok s2 => exact WFStore_handle_retry cfg s1 s2 _ _ _ now jit hwf1 h2

theorem WFStore_processJobList (cfg : ForwarderConfig)
    (out : String → HttpOutcome) (jit : String → Nat) (now : Int) :
    ∀ (jobs : List BookingJob) (s : BrokerStore), WFStore s →
      WFStore (processJobList cfg out jit now s jobs) := by
  intro jobs
  induction jobs with
  | nil => intro s hwf; exact hwf
  | cons job rest ih =>
    intro s hwf
    simp only [processJobList]
    exact ih _ (WFStore_process_job cfg s job _ now _ hwf)

theorem WFStore_process_due_jobs (cfg : ForwarderConfig) (s : BrokerStore)
    (out : String → HttpOutcome) (jit : String → Nat) (now : Int)
    (hwf : WFStore s) : WFStore (process_due_jobs cfg s out jit now) := by
  unfold process_due_jobs
  split
  · exact hwf
  · exact WFStore_processJobList cfg out jit now _ s hwf

theorem WFStore_handle_submit (s s2 : BrokerStore) (cid : String)
    (b : BookingData) (n : NotifyData) (now : Int) (m : Msg) (hwf : WFStore s)
    (h : handle_submit_booking s cid b n now = .ok (s2, m)) : WFStore s2 := by
  unfold handle_submit_booking at h
  cases hg : get_booking_job s cid with
  | error e => rw [hg] at h; simp at h
  | ok o =>
    cases o with
    | some j =>
      rw [hg] at h
      simp only [Except.ok.injEq, Prod.mk.injEq] at h
      rw [← h.1]
      exact hwf
    | none =>
      rw [hg] at h
      simp only [Except.ok.injEq, Prod.mk.injEq] at h
      rw [← h.1]
      exact WFStore_persist_booking_job s _ hwf

theorem WFStore_process_notification (s : BrokerStore)
    (notif : NotificationRecord) (now : Int) (hwf : WFStore s) :
    WFStore (process_notification s notif now).1 := by
  unfold process_notification
  cases hg : get_booking_job s notif.correlation_id with
  | error e => exact hwf
  | ok o =>
    cases o with
    | none => exact hwf
    | some job =>
      dsimp only
      split
      · exact hwf
      · cases hb : build_email job with
        | error e => exact hwf
        | ok sb =>
          dsimp only
          cases hu : update_notification_state s notif.correlation_id
              NotificationState.simulatedSent (some now) (some sb.1)
              (some sb.2) now with
          | error e => exact hwf
          | ok s1 =>
            exact WFStore_update_notification_state s s1 _ _ _ _ _ now hwf hu

theorem WFStore_processNotifList (now : Int) :
    ∀ (notifs : List NotificationRecord) (s : BrokerStore), WFStore s →
      WFStore (processNotifList now s notifs) := by
  intro notifs
  induction notifs with
  | nil => intro s hwf; exact hwf
  | cons notif rest ih =>
    intro s hwf
    simp only [processNotifList]
    exact ih _ (WFStore_process_notification s notif now hwf)

theorem WFStore_process_due_notifications (s : BrokerStore) (now : Int)
    (hwf : WFStore s) : WFStore (process_due_notifications s now) := by
  unfold process_due_notifications
  split
  · exact hwf
  · exact WFStore_processNotifList now _ s hwf

theorem WFStore_step (cfg : ForwarderConfig) (s s2 : BrokerStore)
    (h : Step cfg s s2) (hwf : WFStore s) : WFStore s2 := by
  cases h with
  | submit s2x cid b n now m hsub =>
    exact WFStore_handle_submit s s2 cid b n now m hwf hsub
  | submitErr cid b n now e hsub => exact hwf
  | forwarderTick out jit now =>
    exact WFStore_process_due_jobs cfg s out jit now hwf
  | notifierTick now => exact WFStore_process_due_notifications s now hwf

theorem TreeTermInv_insert_ne (t : Tree BookingJob) (cid : String)
    (st : JobState) (k : String) (v : TreeVal BookingJob) (hk : cid ≠ k)
    (h : TreeTermInv t cid st) : TreeTermInv (treeInsert t k v) cid st := by
  rcases h with ⟨j, hg, hs⟩ | hg
  · exact Or.inl ⟨j, by rw [treeGet_insert_ne _ _ _ _ hk]; exact hg, hs⟩
  · exact Or.inr (by rw [treeGet_insert_ne _ _ _ _ hk]; exact hg)

theorem TreeTermInv_insert_idx (t : Tree BookingJob) (cid : String)
    (st : JobState) (k : String) (h : TreeTermInv t cid st) :
    TreeTermInv (treeInsert t k .idx) cid st := by
  by_cases hk : cid = k
  · subst hk
    exact Or.inr (treeGet_insert_self ..)
  · exact TreeTermInv_insert_ne t cid st k _ hk h

theorem TreeTermInv_update_job_index (t : Tree BookingJob) (cid : String)
    (st : JobState) (job : BookingJob) (h : TreeTermInv t cid st) :
    TreeTermInv (update_job_index t job) cid st := by
  unfold update_job_index
  split
  · exact TreeTermInv_insert_idx t cid st _ h
  · exact h

theorem TreeTermInv_update_job_state_ne (s s2 : BrokerStore) (cid2 : String)
    (u : JobStateUpdate) (now : Int) (cid : String) (st : JobState)
    (hne : cid ≠ cid2) (h : update_job_state s cid2 u now = .ok s2)
    (hinv : TreeTermInv s.booking_jobs cid st) :
    TreeTermInv s2.booking_jobs cid st := by
  obtain ⟨jx, hg, rfl⟩ := update_job_state_ok_inv s s2 cid2 u now h
  exact TreeTermInv_update_job_index _ cid st _
    (TreeTermInv_insert_ne _ cid st _ _ hne hinv)

theorem TreeTermInv_handle_retry_ne (cfg : ForwarderConfig) (s s2 : BrokerStore)
    (cid2 : String) (a : Nat) (err : String) (now : Int) (jitter : Nat)
    (cid : String) (st : JobState) (hne : cid ≠ cid2)
    (h : handle_retry cfg s cid2 a err now jitter = .ok s2)
    (hinv : TreeTermInv s.booking_jobs cid st) :
    TreeTermInv s2.booking_jobs cid st := by
  obtain ⟨u, jx, hg, rfl⟩ := handle_retry_ok_inv cfg s s2 cid2 a err now jitter h
  exact TreeTermInv_update_job_index _ cid st _
    (TreeTermInv_insert_ne _ cid st _ _ hne hinv)

theorem TreeTermInv_process_job_ne (cfg : ForwarderConfig) (s : BrokerStore)
    (job : BookingJob) (out : HttpOutcome) (now : Int) (jit : Nat)
    (cid : String) (st : JobState) (hne : cid ≠ job.correlation_id)
    (hinv : TreeTermInv s.booking_jobs cid st) :
    TreeTermInv (process_job cfg s job out now jit).1.booking_jobs cid st := by
  unfold process_job
  dsimp only
  cases h1 : update_job_state s job.correlation_id sendingUpdate now with
  | error e => exact hinv
  | ok s1 =>
    have hinv1 := TreeTermInv_update_job_state_ne s s1 _ _ now cid st hne h1 hinv
    dsimp only
    cases hp : job.booking_json.fromStr with
    | none => exact hinv1
    | some bk =>
      dsimp only
      cases out with
      | resp status body =>
        dsimp only
        split
        · cases h2 : update_job_state s1 job.correlation_id
              { state := JobState.confirmed, attempts := none,
                next_attempt_at := none, last_error := none,
                http_status := some status,
                central_response_json := some body } now with
          | error e => exact hinv1
          | ok s2 =>
            have hinv2 := TreeTermInv_update_job_state_ne s1 s2 _ _ now cid st
              hne h2 hinv1
            dsimp only
            cases h3 : create_notification s2 job.correlation_id
                job.notify_json now with
            | error e => exact hinv2
            | ok s3 =>
              obtain ⟨nv, email, _, _, rfl⟩ :=
                create_notification_ok_inv s2 s3 _ _ now h3
              unfold TreeTermInv
              rw [persist_notification_booking_jobs]
              exact hinv2
        · cases h2 : update_job_state s1 job.correlation_id
              { state := JobState.failed, attempts := none,
                next_attempt_at := none,
                last_error := some ("HTTP " ++ toString status ++ ": " ++ body),
                http_status := some status,
                central_response_json := some body } now with
          | error e => exact hinv1
          | ok s2 =>
            exact TreeTermInv_update_job_state_ne s1 s2 _ _ now cid st hne h2 hinv1
      | bodyReadErr e =>
        dsimp only
        cases h2 : handle_retry cfg s1 job.correlation_id job.attempts e now jit with
        | error e2 => exact hinv1
        | ok s2 =>
          exact TreeTermInv_handle_retry_ne cfg s1 s2 _ _ _ now jit cid st hne h2 hinv1
      | netErr e =>
        dsimp only
        cases h2 : handle_retry cfg s1 job.correlation_id job.attempts e now jit with
        | error e2 => exact hinv1
        | ok s2 =>
          exact TreeTermInv_handle_retry_ne cfg s1 s2 _ _ _ now jit cid st hne h2 hinv1

theorem TreeTermInv_processJobList (cfg : ForwarderConfig)
    (out : String → HttpOutcome) (jit : String → Nat) (now : Int)
    (cid : String) (st : JobState) :
    ∀ (jobs : List BookingJob) (s : BrokerStore),
      (∀ job ∈ jobs, job.correlation_id ≠ cid) →
      TreeTermInv s.booking_jobs cid st →
      TreeTermInv (processJobList cfg out jit now s jobs).booking_jobs cid st := by
  intro jobs
  induction jobs with
  | nil => intro s _ hinv; exact hinv
  | cons job rest ih =>
    intro s hne hinv
    simp only [processJobList]
    refine ih _ (fun q hq => hne q (List.mem_cons_of_mem _ hq)) ?_
    exact TreeTermInv_process_job_ne cfg s job _ now _ cid st
      (fun he => hne job (List.mem_cons_self _ _) he.symm) hinv

theorem get_due_jobs_excludes_idx (s : BrokerStore) (hwf : WFStore s)
    (cid : String) (hidx : treeGet s.booking_jobs cid = some TreeVal.idx) :
    ∀ (now : Int) (limit : Nat) (res : List BookingJob),
      get_due_jobs s now limit = .ok res → ∀ q ∈ res, q.correlation_id ≠ cid := by
  intro now limit res h q hq heq
  obtain ⟨k, hmem, _, _⟩ := get_due_jobs_sound s now limit res h q hq
  have hk : q.correlation_id = k := hwf.1.1 (k, .stored q) hmem q rfl
  have hkc : k = cid := by rw [← hk, heq]
  subst hkc
  have hget := treeGet_of_mem_sorted _ hwf.1.2 k (.stored q) hmem
  rw [hidx] at hget
  simp at hget

theorem TreeTermInv_process_due_jobs (cfg : ForwarderConfig) (s : BrokerStore)
    (out : String → HttpOutcome) (jit : String → Nat) (now : Int)
    (cid : String) (st : JobState) (hwf : WFStore s)
    (hst : st ≠ JobState.queued) (hinv : TreeTermInv s.booking_jobs cid st) :
    TreeTermInv (process_due_jobs cfg s out jit now).booking_jobs cid st := by
  unfold process_due_jobs
  cases hd : get_due_jobs s now 10 with
  | error e => exact hinv
  | ok jobs =>
    have hne : ∀ job ∈ jobs, job.correlation_id ≠ cid := by
      rcases hinv with ⟨j2, hg, hjs⟩ | hg
      · exact get_due_jobs_excludes s hwf cid j2 hg
          (by rw [hjs]; exact hst) now 10 jobs hd
      · exact get_due_jobs_excludes_idx s hwf cid hg now 10 jobs hd
    exact TreeTermInv_processJobList cfg out jit now cid st jobs s hne hinv

theorem TreeTermInv_handle_submit (s s2 : BrokerStore) (cid2 : String)
    (b : BookingData) (n : NotifyData) (now : Int) (m : Msg) (cid : String)
    (st : JobState) (h : handle_submit_booking s cid2 b n now = .ok (s2, m))
    (hinv : TreeTermInv s.booking_jobs cid st) :
    TreeTermInv s2.booking_jobs cid st := by
  unfold handle_submit_booking at h
  cases hg : get_booking_job s cid2 with
  | error e => rw [hg] at h; simp at h
  | ok o =>
    cases o with
    | some j =>
      rw [hg] at h
      simp only [Except.ok.injEq, Prod.mk.injEq] at h
      rw [← h.1]
      exact hinv
    | none =>
      rw [hg] at h
      simp only [Except.ok.injEq, Prod.mk.injEq] at h
      rw [← h.1]
      have hgt := get_booking_job_none_treeGet s cid2 hg
      have hnec : cid ≠ cid2 := by
        intro he
        subst he
        rcases hinv with ⟨j2, hg2, _⟩ | hg2 <;> rw [hgt] at hg2 <;> simp at hg2
      unfold persist_booking_job treeContains
      rw [show (mkJob cid2 b n now).correlation_id = cid2 from rfl, hgt]
      simp only [Option.isSome_none, Bool.false_eq_true, if_false]
      exact TreeTermInv_update_job_index _ cid st _
        (TreeTermInv_insert_ne _ cid st _ _ hnec hinv)

theorem TreeTermInv_step (cfg : ForwarderConfig) (s s2 : BrokerStore)
    (h : Step cfg s s2) (hwf : WFStore s) (cid : String) (st : JobState)
    (hst : st ≠ JobState.queued) (hinv : TreeTermInv s.booking_jobs cid st) :
    TreeTermInv s2.booking_jobs cid st := by
  cases h with
  | submit s2x cid2 b n now m hsub =>
    exact TreeTermInv_handle_submit s s2 cid2 b n now m cid st hsub hinv
  | submitErr cid2 b n now e hsub => exact hinv
  | forwarderTick out jit now =>
    exact TreeTermInv_process_due_jobs cfg s out jit now cid st hwf hst hinv
  | notifierTick now =>
    unfold TreeTermInv
    rw [process_due_notifications_booking]
    exact hinv

theorem TreeTermInv_steps (cfg : ForwarderConfig) (s s2 : BrokerStore)
    (h : Relation.ReflTransGen (Step cfg) s s2) (hwf : WFStore s)
    (cid : String) (st : JobState) (hst : st ≠ JobState.queued)
    (hinv : TreeTermInv s.booking_jobs cid st) :
    WFStore s2 ∧ TreeTermInv s2.booking_jobs cid st := by
  induction h with
  | refl => exact ⟨hwf, hinv⟩
  | tail hab hbc ih =>
    obtain ⟨hwfb, hinvb⟩ := ih
    exact ⟨WFStore_step cfg _ _ hbc hwfb,
      TreeTermInv_step cfg _ _ hbc hwfb cid st hst hinvb⟩

/-- Claim C9: under every sequence of system steps (submissions, forwarder
ticks, notifier ticks) from a well-formed store, a job record observed in a
terminal state (Confirmed or Failed) is never observed in any other state
afterwards. -/
theorem terminal_states_stable (cfg : ForwarderConfig) (s s2 : BrokerStore)
    (hwf : WFStore s) (hsteps : Relation.ReflTransGen (Step cfg) s s2)
    (cid : String) (j j2 : BookingJob)
    (hj : treeGet s.booking_jobs cid = some (.stored j))
    (hterm : j.state = JobState.confirmed ∨ j.state = JobState.failed)
    (hj2 : treeGet s2.booking_jobs cid = some (.stored j2)) :
    j2.state = j.state := by
  have hst : j.state ≠ JobState.queued := by
    rcases hterm with h | h <;> rw [h] <;> simp
  have hinv : TreeTermInv s.booking_jobs cid j.state := Or.inl ⟨j, hj, rfl⟩
  obtain ⟨_, hinv2⟩ :=
    TreeTermInv_steps cfg s s2 hsteps hwf cid j.state hst hinv
  rcases hinv2 with ⟨j3, hg3, hs3⟩ | hg3
  · rw [hj2] at hg3
    simp only [Option.some.injEq] at hg3
    cases hg3
    exact hs3
  · rw [hj2] at hg3
    simp at hg3

set_option maxRecDepth 16000 in
theorem terminal_states_stable_witness :
    treeGet c9Store.booking_jobs "c1" = some (.stored c9Job) ∧
    (c9Job.state = JobState.confirmed ∨ c9Job.state = JobState.failed) ∧
    treeGet c9Store2.booking_jobs "c1" = some (.stored c9Job) ∧
    c9Job.state = c9Job.state :=
  ⟨rfl, Or.inl rfl, rfl,
    terminal_states_stable ⟨10, 1000⟩ c9Store c9Store2
      (WFStore_process_job ⟨10, 1000⟩ c3Store
        (mkJob "c1" sampleBooking sampleNotify 1700000000000)
        (.resp 200 "ok-42") 9 7 wf_c3Store)
      (Relation.ReflTransGen.single
        (Step.submit c9Store c9Store2 "c2" sampleBooking sampleNotify 11
          (Msg.bookingAck "c2" "queued") rfl))
      "c1" c9Job c9Job rfl (Or.inl rfl) rfl⟩

/-! ### C8: notifications are created only at confirmation -/

theorem treeGet_insert_cases {α : Type} (t : Tree α) (k : String)
    (v : TreeVal α) (cid : String) :
    treeGet (treeInsert t k v) cid = treeGet t cid ∨
      (cid = k ∧ treeGet (treeInsert t k v) cid = some v) := by
  by_cases h : cid = k
  · subst h
    exact Or.inr ⟨rfl, treeGet_insert_self ..⟩
  · exact Or.inl (treeGet_insert_ne t k cid v h)

/-- If `persist_notification` turned an absent key into a stored record, it
is the persisted record under its own correlation id. -/
theorem persist_notification_new (s : BrokerStore) (notif : NotificationRecord)
    (cid : String) (n : NotificationRecord)
    (habs : treeGet s.notification_outbox cid = none)
    (hnew : treeGet (persist_notification s notif).notification_outbox cid =
      some (.stored n)) :
    cid = notif.correlation_id ∧ n = notif := by
  unfold persist_notification at hnew
  split at hnew
  · rw [habs] at hnew
    simp at hnew
  · dsimp only at hnew
    rcases treeGet_update_notification_index_cases
        (treeInsert s.notification_outbox notif.correlation_id (.stored notif))
        notif cid with hcase | hcase
    · rw [hcase] at hnew
      rcases treeGet_insert_cases s.notification_outbox notif.correlation_id
          (.stored notif) cid with hc2 | ⟨hc2, hc3⟩
      · rw [hc2, habs] at hnew
        simp at hnew
      · rw [hc3] at hnew
        simp only [Option.some.injEq] at hnew
        cases hnew
        exact ⟨hc2, rfl⟩
    · rw [hcase] at hnew
      simp at hnew

/-- Characterization of notification creation by one forwarding attempt:
a record can appear under an absent key only on a 2xx response, under the
job's own correlation id, as the freshly built pending record whose
`email_to` was extracted from the job's notify payload; and the job record
in the resulting store is Confirmed. -/
theorem process_job_creates (cfg : ForwarderConfig) (s : BrokerStore)
    (job : BookingJob) (out : HttpOutcome) (now : Int) (jit : Nat)
    (cid : String) (n : NotificationRecord) (hwf : WFStore s)
    (habs : treeGet s.notification_outbox cid = none)
    (hnew : treeGet (process_job cfg s job out now jit).1.notification_outbox
      cid = some (.stored n)) :
    cid = job.correlation_id ∧
    (∃ status body, out = .resp status body ∧ isSuccessStatus status) ∧
    (∃ nv, job.notify_json.fromStr = some nv ∧
      (nv.get "email").asStr = some n.email_to) ∧
    n = mkNotif cid n.email_to now ∧
    (∃ j2, treeGet (process_job cfg s job out now jit).1.booking_jobs cid =
      some (.stored j2) ∧ j2.state = JobState.confirmed) := by
  unfold process_job at hnew ⊢
  dsimp only at hnew ⊢
  cases h1 : update_job_state s job.correlation_id sendingUpdate now with
  | error e =>
    rw [h1] at hnew
    dsimp only at hnew
    rw [habs] at hnew
    simp at hnew
  | ok s1 =>
    rw [h1] at hnew
    dsimp only at hnew ⊢
    have hout1 : s1.notification_outbox = s.notification_outbox :=
      update_job_state_outbox s s1 _ _ now h1
    have hwf1 : WFStore s1 := WFStore_update_job_state s s1 _ _ now hwf h1
    cases hp : job.booking_json.fromStr with
    | none =>
      rw [hp] at hnew
      dsimp only at hnew
      rw [hout1, habs] at hnew
      simp at hnew
    | some bk =>
      rw [hp] at hnew
      dsimp only at hnew ⊢
      cases out with
      | bodyReadErr e =>
        dsimp only at hnew
        cases h2 : handle_retry cfg s1 job.correlation_id job.attempts e now jit with
        | error e2 =>
          rw [h2] at hnew
          dsimp only at hnew
          rw [hout1, habs] at hnew
          simp at hnew
        | ok s2 =>
          rw [h2] at hnew
          dsimp only at hnew
          obtain ⟨u, jx, _, rfl⟩ :=
            handle_retry_ok_inv cfg s1 s2 _ _ _ now jit h2
          rw [show (updatedStore s1 job.correlation_id u now jx).notification_outbox
            = s1.notification_outbox from rfl, hout1, habs] at hnew
          simp at hnew
      | netErr e =>
        dsimp only at hnew
        cases h2 : handle_retry cfg s1 job.correlation_id job.attempts e now jit with
        | error e2 =>
          rw [h2] at hnew
          dsimp only at hnew
          rw [hout1, habs] at hnew
          simp at hnew
        | ok s2 =>
          rw [h2] at hnew
          dsimp only at hnew
          obtain ⟨u, jx, _, rfl⟩ :=
            handle_retry_ok_inv cfg s1 s2 _ _ _ now jit h2
          rw [show (updatedStore s1 job.correlation_id u now jx).notification_outbox
            = s1.notification_outbox from rfl, hout1, habs] at hnew
          simp at hnew
      | resp status body =>
        dsimp only at hnew ⊢
        by_cases hst : isSuccessStatus status
        · rw [if_pos hst] at hnew ⊢
          cases h2 : update_job_state s1 job.correlation_id
              { state := JobState.confirmed, attempts := none,
                next_attempt_at := none, last_error := none,
                http_status := some status,
                central_response_json := some body } now with
          | error e =>
            rw [h2] at hnew
            dsimp only at hnew
            rw [hout1, habs] at hnew
            simp at hnew
          | ok s2 =>
            rw [h2] at hnew
            dsimp only at hnew ⊢
            have hout2 : s2.notification_outbox = s.notification_outbox := by
              rw [update_job_state_outbox s1 s2 _ _ now h2, hout1]
            cases h3 : create_notification s2 job.correlation_id
                job.notify_json now with
            | error e =>
              rw [h3] at hnew
              dsimp only at hnew
              rw [hout2, habs] at hnew
              simp at hnew
            | ok s3 =>
              rw [h3] at hnew
              dsimp only at hnew ⊢
              obtain ⟨nv, email, hnv, he, rfl⟩ :=
                create_notification_ok_inv s2 s3 _ _ now h3
              have habs2 : treeGet s2.notification_outbox cid = none := by
                rw [hout2]; exact habs
              obtain ⟨hc1, hc2⟩ := persist_notification_new s2
                (mkNotif job.correlation_id email now) cid n habs2 hnew
              subst hc2
              refine ⟨hc1, ⟨status, body, rfl, hst⟩, ⟨nv, hnv, he⟩, ?_, ?_⟩
              · rw [hc1]
                rfl
              · obtain ⟨jx, hgx, he2⟩ :=
                  update_job_state_ok_inv s1 s2 _ _ now h2
                have hcidx : jx.correlation_id = job.correlation_id :=
                  get_booking_job_correlation s1 _ jx hwf1 hgx
                refine ⟨applyUpdate jx
                  { state := JobState.confirmed, attempts := none,
                    next_attempt_at := none, last_error := none,
                    http_status := some status,
                    central_response_json := some body } now, ?_, rfl⟩
                rw [persist_notification_booking_jobs, he2, hc1]
                exact get_booking_job_some_treeGet _ _ _
                  (get_booking_job_updatedStore s1 job.correlation_id _ now jx hcidx)
        · rw [if_neg hst] at hnew
          cases h2 : update_job_state s1 job.correlation_id
              { state := JobState.failed, attempts := none,
                next_attempt_at := none,
                last_error := some ("HTTP " ++ toString status ++ ": " ++ body),
                http_status := some status,
                central_response_json := some body } now with
          | error e =>
            rw [h2] at hnew
            dsimp only at hnew
            rw [hout1, habs] at hnew
            simp at hnew
          | ok s2 =>
            rw [h2] at hnew
            dsimp only at hnew
            rw [update_job_state_outbox s1 s2 _ _ now h2, hout1, habs] at hnew
            simp at hnew

theorem persist_booking_job_outbox (s : BrokerStore) (job : BookingJob) :
    (persist_booking_job s job).notification_outbox = s.notification_outbox := by
  unfold persist_booking_job
  split <;> rfl

theorem treeContains_false_treeGet {α : Type} (t : Tree α) (k : String)
    (h : ¬ treeContains t k = true) : treeGet t k = none := by
  unfold treeContains at h
  cases hg : treeGet t k with
  | none => rfl
  | some v => rw [hg] at h; simp at h

theorem NotifKeyInv_persist (s : BrokerStore) (notif : NotificationRecord)
    (cid : String) (n1 : NotificationRecord)
    (hinv : NotifKeyInv s.notification_outbox cid n1) :
    NotifKeyInv (persist_notification s notif).notification_outbox cid n1 := by
  unfold persist_notification
  split
  · exact hinv
  · rename_i hcont
    have hnone := treeContains_false_treeGet _ _ hcont
    have hne : cid ≠ notif.correlation_id := by
      intro he
      subst he
      rcases hinv with h | h <;> rw [hnone] at h <;> simp at h
    dsimp only
    rcases treeGet_update_notification_index_cases
        (treeInsert s.notification_outbox notif.correlation_id (.stored notif))
        notif cid with hc | hc
    · unfold NotifKeyInv
      rw [hc, treeGet_insert_ne _ _ _ _ hne]
      exact hinv
    · exact Or.inr hc

theorem NotifIdxInv_persist (s : BrokerStore) (notif : NotificationRecord)
    (cid : String) (hinv : NotifIdxInv s.notification_outbox cid) :
    NotifIdxInv (persist_notification s notif).notification_outbox cid := by
  unfold persist_notification
  split
  · exact hinv
  · rename_i hcont
    have hnone := treeContains_false_treeGet _ _ hcont
    have hne : cid ≠ notif.correlation_id := by
      intro he
      subst he
      rw [NotifIdxInv, hnone] at hinv
      simp at hinv
    dsimp only
    rcases treeGet_update_notification_index_cases
        (treeInsert s.notification_outbox notif.correlation_id (.stored notif))
        notif cid with hc | hc
    · unfold NotifIdxInv
      rw [hc, treeGet_insert_ne _ _ _ _ hne]
      exact hinv
    · exact hc

theorem NotifKeyInv_process_job (cfg : ForwarderConfig) (s : BrokerStore)
    (job : BookingJob) (out : HttpOutcome) (now : Int) (jit : Nat)
    (cid : String) (n1 : NotificationRecord)
    (hinv : NotifKeyInv s.notification_outbox cid n1) :
    NotifKeyInv (process_job cfg s job out now jit).1.notification_outbox cid n1 := by
  unfold process_job
  dsimp only
  cases h1 : update_job_state s job.correlation_id sendingUpdate now with
  | error e => exact hinv
  | ok s1 =>
    have hout1 := update_job_state_outbox s s1 _ _ now h1
    have hinv1 : NotifKeyInv s1.notification_outbox cid n1 := by
      rw [NotifKeyInv, hout1]; exact hinv
    dsimp only
    cases hp : job.booking_json.fromStr with
    | none => exact hinv1
    | some bk =>
      dsimp only
      cases out with
      | resp status body =>
        dsimp only
        split
        · cases h2 : update_job_state s1 job.correlation_id
              { state := JobState.confirmed, attempts := none,
                next_attempt_at := none, last_error := none,
                http_status := some status,
                central_response_json := some body } now with
          | error e => exact hinv1
          | ok s2 =>
            have hinv2 : NotifKeyInv s2.notification_outbox cid n1 := by
              rw [NotifKeyInv, update_job_state_outbox s1 s2 _ _ now h2]
              exact hinv1
            dsimp only
            cases h3 : create_notification s2 job.correlation_id
                job.notify_json now with
            | error e => exact hinv2
            | ok s3 =>
              obtain ⟨nv, email, _, _, rfl⟩ :=
                create_notification_ok_inv s2 s3 _ _ now h3
              exact NotifKeyInv_persist s2 _ cid n1 hinv2
        · cases h2 : update_job_state s1 job.correlation_id
              { state := JobState.failed, attempts := none,
                next_attempt_at := none,
                last_error := some ("HTTP " ++ toString status ++ ": " ++ body),
                http_status := some status,
                central_response_json := some body } now with
          | error e => exact hinv1
          | ok s2 =>
            rw [NotifKeyInv, update_job_state_outbox s1 s2 _ _ now h2]
            exact hinv1
      | bodyReadErr e =>
        dsimp only
        cases h2 : handle_retry cfg s1 job.correlation_id job.attempts e now jit with
        | error e2 => exact hinv1
        | ok s2 =>
          obtain ⟨u, jx, _, rfl⟩ := handle_retry_ok_inv cfg s1 s2 _ _ _ now jit h2
          exact hinv1
      | netErr e =>
        dsimp only
        cases h2 : handle_retry cfg s1 job.correlation_id job.attempts e now jit with
        | error e2 => exact hinv1
        | ok s2 =>
          obtain ⟨u, jx, _, rfl⟩ := handle_retry_ok_inv cfg s1 s2 _ _ _ now jit h2
          exact hinv1

theorem NotifIdxInv_process_job (cfg : ForwarderConfig) (s : BrokerStore)
    (job : BookingJob) (out : HttpOutcome) (now : Int) (jit : Nat)
    (cid : String) (hinv : NotifIdxInv s.notification_outbox cid) :
    NotifIdxInv (process_job cfg s job out now jit).1.notification_outbox cid := by
  unfold process_job
  dsimp only
  cases h1 : update_job_state s job.correlation_id sendingUpdate now with
  | error e => exact hinv
  | ok s1 =>
    have hinv1 : NotifIdxInv s1.notification_outbox cid := by
      rw [NotifIdxInv, update_job_state_outbox s s1 _ _ now h1]
      exact hinv
    dsimp only
    cases hp : job.booking_json.fromStr with
    | none => exact hinv1
    | some bk =>
      dsimp only
      cases out with
      | resp status body =>
        dsimp only
        split
        · cases h2 : update_job_state s1 job.correlation_id
              { state := JobState.confirmed, attempts := none,
                next_attempt_at := none, last_error := none,
                http_status := some status,
                central_response_json := some body } now with
          | error e => exact hinv1
          | ok s2 =>
            have hinv2 : NotifIdxInv s2.notification_outbox cid := by
              rw [NotifIdxInv, update_job_state_outbox s1 s2 _ _ now h2]
              exact hinv1
            dsimp only
            cases h3 : create_notification s2 job.correlation_id
                job.notify_json now with
            | error e => exact hinv2
            | ok s3 =>
              obtain ⟨nv, email, _, _, rfl⟩ :=
                create_notification_ok_inv s2 s3 _ _ now h3
              exact NotifIdxInv_persist s2 _ cid hinv2
        · cases h2 : update_job_state s1 job.correlation_id
              { state := JobState.failed, attempts := none,
                next_attempt_at := none,
                last_error := some ("HTTP " ++ toString status ++ ": " ++ body),
                http_status := some status,
                central_response_json := some body } now with
          | error e => exact hinv1
          | ok s2 =>
            rw [NotifIdxInv, update_job_state_outbox s1 s2 _ _ now h2]
            exact hinv1
      | bodyReadErr e =>
        dsimp only
        cases h2 : handle_retry cfg s1 job.correlation_id job.attempts e now jit with
        | error e2 => exact hinv1
        | ok s2 =>
          obtain ⟨u, jx, _, rfl⟩ := handle_retry_ok_inv cfg s1 s2 _ _ _ now jit h2
          exact hinv1
      | netErr e =>
        dsimp only
        cases h2 : handle_retry cfg s1 job.correlation_id job.attempts e now jit with
        | error e2 => exact hinv1
        | ok s2 =>
          obtain ⟨u, jx, _, rfl⟩ := handle_retry_ok_inv cfg s1 s2 _ _ _ now jit h2
          exact hinv1

theorem NotifKeyInv_processJobList (cfg : ForwarderConfig)
    (out : String → HttpOutcome) (jit : String → Nat) (now : Int)
    (cid : String) (n1 : NotificationRecord) :
    ∀ (jobs : List BookingJob) (s : BrokerStore),
      NotifKeyInv s.notification_outbox cid n1 →
      NotifKeyInv (processJobList cfg out jit now s jobs).notification_outbox
        cid n1 := by
  intro jobs
  induction jobs with
  | nil => intro s hinv; exact hinv
  | cons job rest ih =>
    intro s hinv
    simp only [processJobList]
    exact ih _ (NotifKeyInv_process_job cfg s job _ now _ cid n1 hinv)

theorem NotifIdxInv_processJobList (cfg : ForwarderConfig)
    (out : String → HttpOutcome) (jit : String → Nat) (now : Int)
    (cid : String) :
    ∀ (jobs : List BookingJob) (s : BrokerStore),
      NotifIdxInv s.notification_outbox cid →
      NotifIdxInv (processJobList cfg out jit now s jobs).notification_outbox
        cid := by
  intro jobs
  induction jobs with
  | nil => intro s hinv; exact hinv
  | cons job rest ih =>
    intro s hinv
    simp only [processJobList]
    exact ih _ (NotifIdxInv_process_job cfg s job _ now _ cid hinv)

theorem processJobList_creates (cfg : ForwarderConfig)
    (out : String → HttpOutcome) (jit : String → Nat) (now : Int)
    (cid : String) (n : NotificationRecord) :
    ∀ (jobs : List BookingJob) (s : BrokerStore), WFStore s →
      jobs.Pairwise (fun a b => a.correlation_id ≠ b.correlation_id) →
      treeGet s.notification_outbox cid = none →
      treeGet (processJobList cfg out jit now s jobs).notification_outbox cid =
        some (.stored n) →
      (∃ jobSnap ∈ jobs, jobSnap.correlation_id = cid ∧
        (∃ nv, jobSnap.notify_json.fromStr = some nv ∧
          (nv.get "email").asStr = some n.email_to) ∧
        n = mkNotif cid n.email_to now) ∧
      (∀ j2, treeGet (processJobList cfg out jit now s jobs).booking_jobs cid =
        some (.stored j2) → j2.state = JobState.confirmed) := by
  intro jobs
  induction jobs with
  | nil =>
    intro s _ _ habs hnew
    simp only [processJobList] at hnew
    rw [habs] at hnew
    simp at hnew
  | cons job rest ih =>
    intro s hwf hpw habs hnew
    rcases List.pairwise_cons.mp hpw with ⟨hhead, htail⟩
    simp only [processJobList] at hnew ⊢
    have hwfr := WFStore_process_job cfg s job (out job.correlation_id) now
      (jit job.correlation_id) hwf
    cases hmid : treeGet (process_job cfg s job (out job.correlation_id) now
        (jit job.correlation_id)).1.notification_outbox cid with
    | none =>
      obtain ⟨⟨snap, hsnap, hrest⟩, hguard⟩ := ih _ hwfr htail hmid hnew
      exact ⟨⟨snap, List.mem_cons_of_mem _ hsnap, hrest⟩, hguard⟩
    | some v =>
      cases v with
      | idx =>
        have hfin := NotifIdxInv_processJobList cfg out jit now cid rest _ hmid
        rw [NotifIdxInv, hnew] at hfin
        simp at hfin
      | stored n1 =>
        obtain ⟨hc1, _, ⟨nv, hnv, he⟩, hmk, j2c, hj2g, hj2s⟩ :=
          process_job_creates cfg s job (out job.correlation_id) now
            (jit job.correlation_id) cid n1 hwf habs hmid
        have hfin := NotifKeyInv_processJobList cfg out jit now cid n1 rest _
          (Or.inl hmid)
        have hn1 : n = n1 := by
          rcases hfin with hf | hf <;> rw [hnew] at hf <;>
            simp only [Option.some.injEq] at hf
          · cases hf
            rfl
          · cases hf
        subst hn1
        have hne : ∀ q ∈ rest, q.correlation_id ≠ cid := by
          intro q hq heq
          exact hhead q hq (by rw [← hc1, heq])
        have hterm := TreeTermInv_processJobList cfg out jit now cid
          JobState.confirmed rest _ hne (Or.inl ⟨j2c, hj2g, hj2s⟩)
        refine ⟨⟨job, List.mem_cons_self _ _, hc1.symm, ⟨nv, hnv, he⟩, hmk⟩, ?_⟩
        intro j2 hj2
        rcases hterm with ⟨j3, hg3, hs3⟩ | hg3
        · rw [hj2] at hg3
          simp only [Option.some.injEq] at hg3
          cases hg3
          exact hs3
        · rw [hj2] at hg3
          simp at hg3

theorem process_due_jobs_creates (cfg : ForwarderConfig) (s : BrokerStore)
    (out : String → HttpOutcome) (jit : String → Nat) (now : Int)
    (cid : String) (n : NotificationRecord) (hwf : WFStore s)
    (habs : treeGet s.notification_outbox cid = none)
    (hnew : treeGet (process_due_jobs cfg s out jit now).notification_outbox
      cid = some (.stored n)) :
    (∃ jobSnap, treeGet s.booking_jobs cid = some (.stored jobSnap) ∧
      jobSnap.correlation_id = cid ∧ jobSnap.state = JobState.queued ∧
      (∃ nv, jobSnap.notify_json.fromStr = some nv ∧
        (nv.get "email").asStr = some n.email_to) ∧
      n = mkNotif cid n.email_to now) ∧
    (∀ j2, treeGet (process_due_jobs cfg s out jit now).booking_jobs cid =
      some (.stored j2) → j2.state = JobState.confirmed) := by
  unfold process_due_jobs at hnew ⊢
  cases hd : get_due_jobs s now 10 with
  | error e =>
    simp only [hd] at hnew
    rw [habs] at hnew
    simp at hnew
  | ok jobs =>
    simp only [hd] at hnew ⊢
    obtain ⟨⟨snap, hsnap, hcid, hemail, hmk⟩, hguard⟩ :=
      processJobList_creates cfg out jit now cid n jobs s hwf
        (get_due_jobs_pairwise s hwf now 10 jobs hd) habs hnew
    obtain ⟨k, hkmem, hq, _⟩ := get_due_jobs_sound s now 10 jobs hd snap hsnap
    have hk : snap.correlation_id = k := hwf.1.1 (k, .stored snap) hkmem snap rfl
    have hkc : k = cid := by rw [← hk, hcid]
    subst hkc
    exact ⟨⟨snap, treeGet_of_mem_sorted _ hwf.1.2 k _ hkmem, hcid, hq, hemail, hmk⟩,
      hguard⟩

/-! The notifier never creates an outbox record under an absent key. -/

theorem update_notification_state_ok_inv (s s2 : BrokerStore) (cid2 : String)
    (st : NotificationState) (sent : Option Int) (subj body : Option String)
    (now : Int) (h : update_notification_state s cid2 st sent subj body now = .ok s2) :
    ∃ n0 n1 : NotificationRecord, get_notification s cid2 = .ok (some n0) ∧
      s2.notification_outbox =
        update_notification_index
          (treeInsert s.notification_outbox cid2 (.stored n1)) n1 := by
  unfold update_notification_state at h
  cases hg : get_notification s cid2 with
  | error e => rw [hg] at h; simp at h
  | ok o =>
    cases o with
    | none => rw [hg] at h; simp at h
    | some n0 =>
      rw [hg] at h
      simp only [Except.ok.injEq] at h
      subst h
      exact ⟨n0, _, rfl, rfl⟩

theorem NotifAbsInv_update_notification_state (s s2 : BrokerStore)
    (cid2 : String) (st : NotificationState) (sent : Option Int)
    (subj body : Option String) (now : Int) (cid : String)
    (h : update_notification_state s cid2 st sent subj body now = .ok s2)
    (hinv : NotifAbsInv s.notification_outbox cid) :
    NotifAbsInv s2.notification_outbox cid := by
  obtain ⟨n0, n1, hg, he⟩ :=
    update_notification_state_ok_inv s s2 cid2 st sent subj body now h
  have hg2 := get_notification_some_treeGet s cid2 n0 hg
  have hne : cid ≠ cid2 := by
    intro heq
    subst heq
    rcases hinv with h2 | h2 <;> rw [hg2] at h2 <;> simp at h2
  rw [NotifAbsInv, he]
  rcases treeGet_update_notification_index_cases
      (treeInsert s.notification_outbox cid2 (.stored n1)) n1 cid with hc | hc
  · rw [hc, treeGet_insert_ne _ _ _ _ hne]
    exact hinv
  · exact Or.inr hc

theorem NotifAbsInv_process_notification (s : BrokerStore)
    (notif : NotificationRecord) (now : Int) (cid : String)
    (hinv : NotifAbsInv s.notification_outbox cid) :
    NotifAbsInv (process_notification s notif now).1.notification_outbox cid := by
  unfold process_notification
  cases hg : get_booking_job s notif.correlation_id with
  | error e => exact hinv
  | ok o =>
    cases o with
    | none => exact hinv
    | some job =>
      dsimp only
      split
      · exact hinv
      · cases hb : build_email job with
        | error e => exact hinv
        | ok sb =>
          dsimp only
          cases hu : update_notification_state s notif.correlation_id
              NotificationState.simulatedSent (some now) (some sb.1)
              (some sb.2) now with
          | error e => exact hinv
          | ok s1 =>
            exact NotifAbsInv_update_notification_state s s1 _ _ _ _ _ now cid
              hu hinv

theorem NotifAbsInv_processNotifList (now : Int) (cid : String) :
    ∀ (notifs : List NotificationRecord) (s : BrokerStore),
      NotifAbsInv s.notification_outbox cid →
      NotifAbsInv (processNotifList now s notifs).notification_outbox cid := by
  intro notifs
  induction notifs with
  | nil => intro s hinv; exact hinv
  | cons notif rest ih =>
    intro s hinv
    simp only [processNotifList]
    exact ih _ (NotifAbsInv_process_notification s notif now cid hinv)

theorem NotifAbsInv_process_due_notifications (s : BrokerStore) (now : Int)
    (cid : String) (hinv : NotifAbsInv s.notification_outbox cid) :
    NotifAbsInv (process_due_notifications s now).notification_outbox cid := by
  unfold process_due_notifications
  split
  · exact hinv
  · exact NotifAbsInv_processNotifList now cid _ s hinv

theorem handle_submit_outbox (s s2 : BrokerStore) (cid : String)
    (b : BookingData) (n : NotifyData) (now : Int) (m : Msg)
    (h : handle_submit_booking s cid b n now = .ok (s2, m)) :
    s2.notification_outbox = s.notification_outbox := by
  unfold handle_submit_booking at h
  cases hg : get_booking_job s cid with
  | error e => rw [hg] at h; simp at h
  | ok o =>
    cases o with
    | some j =>
      rw [hg] at h
      simp only [Except.ok.injEq, Prod.mk.injEq] at h
      rw [← h.1]
    | none =>
      rw [hg] at h
      simp only [Except.ok.injEq, Prod.mk.injEq] at h
      rw [← h.1]
      exact persist_booking_job_outbox s _

/-- Claim C8: a notification record appears under a previously absent key
only through the forwarder's 2xx path: the creating tick stored it under the
job's own correlation id as a fresh Pending record (attempts 0, blank
subject and body, `email_to` extracted from the notify payload of the queued
job stored at that key when the tick began), the job record in the resulting
store is Confirmed whenever still readable, and a missing `email` field in
the notify payload aborts notification creation while leaving the job
Confirmed. -/
theorem notification_requires_confirmed (cfg : ForwarderConfig)
    (s s2 : BrokerStore) (hwf : WFStore s) (hstep : Step cfg s s2)
    (cid : String) (n : NotificationRecord)
    (habs : treeGet s.notification_outbox cid = none)
    (hnew : treeGet s2.notification_outbox cid = some (.stored n)) :
    (∀ j2, treeGet s2.booking_jobs cid = some (.stored j2) →
      j2.state = JobState.confirmed) ∧
    (∃ jobSnap, treeGet s.booking_jobs cid = some (.stored jobSnap) ∧
      jobSnap.correlation_id = cid ∧ jobSnap.state = JobState.queued ∧
      ∃ nv, jobSnap.notify_json.fromStr = some nv ∧
        (nv.get "email").asStr = some n.email_to) ∧
    (∃ now2, n = mkNotif cid n.email_to now2) ∧
    n.state = NotificationState.pending ∧ n.attempts = 0 ∧ n.subject = "" ∧
    n.body = "" ∧ n.correlation_id = cid ∧ n.simulated_sent_at = none ∧
    n.last_error = none ∧
    (∀ (cfg2 : ForwarderConfig) (s3 : BrokerStore) (job2 jx : BookingJob)
        (bk2 nv2 : Json) (status2 : Nat) (body2 : String) (now2 : Int)
        (jit2 : Nat),
      WFStore s3 → get_booking_job s3 job2.correlation_id = .ok (some jx) →
      job2.booking_json.fromStr = some bk2 →
      job2.notify_json.fromStr = some nv2 →
      (nv2.get "email").asStr = none → isSuccessStatus status2 →
      process_job cfg2 s3 job2 (.resp status2 body2) now2 jit2 =
        (updatedStore (updatedStore s3 job2.correlation_id sendingUpdate now2 jx)
          job2.correlation_id (confirmUpdate status2 body2) now2
          (applyUpdate jx sendingUpdate now2), false) ∧
      (updatedStore (updatedStore s3 job2.correlation_id sendingUpdate now2 jx)
        job2.correlation_id (confirmUpdate status2 body2) now2
        (applyUpdate jx sendingUpdate now2)).notification_outbox =
        s3.notification_outbox ∧
      get_booking_job
          (updatedStore
            (updatedStore s3 job2.correlation_id sendingUpdate now2 jx)
            job2.correlation_id (confirmUpdate status2 body2) now2
            (applyUpdate jx sendingUpdate now2)) job2.correlation_id =
        .ok (some (applyUpdate (applyUpdate jx sendingUpdate now2)
          (confirmUpdate status2 body2) now2)) ∧
      (applyUpdate (applyUpdate jx sendingUpdate now2)
        (confirmUpdate status2 body2) now2).state = JobState.confirmed) := by
  have hmiss : ∀ (cfg2 : ForwarderConfig) (s3 : BrokerStore)
      (job2 jx : BookingJob) (bk2 nv2 : Json) (status2 : Nat) (body2 : String)
      (now2 : Int) (jit2 : Nat),
      WFStore s3 → get_booking_job s3 job2.correlation_id = .ok (some jx) →
      job2.booking_json.fromStr = some bk2 →
      job2.notify_json.fromStr = some nv2 →
      (nv2.get "email").asStr = none → isSuccessStatus status2 →
      process_job cfg2 s3 job2 (.resp status2 body2) now2 jit2 =
        (updatedStore (updatedStore s3 job2.correlation_id sendingUpdate now2 jx)
          job2.correlation_id (confirmUpdate status2 body2) now2
          (applyUpdate jx sendingUpdate now2), false) ∧
      (updatedStore (updatedStore s3 job2.correlation_id sendingUpdate now2 jx)
        job2.correlation_id (confirmUpdate status2 body2) now2
        (applyUpdate jx sendingUpdate now2)).notification_outbox =
        s3.notification_outbox ∧
      get_booking_job
          (updatedStore
            (updatedStore s3 job2.correlation_id sendingUpdate now2 jx)
            job2.correlation_id (confirmUpdate status2 body2) now2
            (applyUpdate jx sendingUpdate now2)) job2.correlation_id =
        .ok (some (applyUpdate (applyUpdate jx sendingUpdate now2)
          (confirmUpdate status2 body2) now2)) ∧
      (applyUpdate (applyUpdate jx sendingUpdate now2)
        (confirmUpdate status2 body2) now2).state = JobState.confirmed := by
    intro cfg2 s3 job2 jx bk2 nv2 status2 body2 now2 jit2 hwf3 hg3 hp3 hnv3
      hem3 hst3
    have hcid3 := get_booking_job_correlation s3 job2.correlation_id jx hwf3 hg3
    have hget13 : get_booking_job
        (updatedStore s3 job2.correlation_id sendingUpdate now2 jx)
        job2.correlation_id = .ok (some (applyUpdate jx sendingUpdate now2)) :=
      get_booking_job_updatedStore s3 job2.correlation_id sendingUpdate now2 jx
        hcid3
    have hcid13 : (applyUpdate jx sendingUpdate now2).correlation_id =
        job2.correlation_id := by
      rw [applyUpdate_correlation_id, hcid3]
    refine ⟨?_, rfl, get_booking_job_updatedStore _ job2.correlation_id _ now2 _
      hcid13, rfl⟩
    unfold process_job
    dsimp only
    rw [update_job_state_ok s3 job2.correlation_id sendingUpdate now2 jx hg3]
    dsimp only
    rw [hp3]
    dsimp only
    rw [if_pos hst3]
    rw [update_job_state_ok _ job2.correlation_id _ now2
      (applyUpdate jx sendingUpdate now2) hget13]
    dsimp only
    unfold create_notification
    rw [hnv3]
    dsimp only
    rw [hem3]
    rfl
  cases hstep with
  | submit s2x cidb b nd now m hsub =>
    rw [handle_submit_outbox s s2 cidb b nd now m hsub, habs] at hnew
    simp at hnew
  | submitErr cidb b nd now e hsub =>
    rw [habs] at hnew
    simp at hnew
  | forwarderTick out jit now =>
    obtain ⟨⟨snap, hsnapg, hsnapc, hsnapq, hsnapn, hmk⟩, hguard⟩ :=
      process_due_jobs_creates cfg s out jit now cid n hwf habs hnew
    refine ⟨hguard, ⟨snap, hsnapg, hsnapc, hsnapq, hsnapn⟩, ⟨now, hmk⟩,
      ?_, ?_, ?_, ?_, ?_, ?_, ?_, hmiss⟩
    all_goals rw [hmk]
    all_goals rfl
  | notifierTick now =>
    have hfin := NotifAbsInv_process_due_notifications s now cid (Or.inl habs)
    rcases hfin with hf | hf <;> rw [hnew] at hf <;> simp at hf

set_option maxRecDepth 32000 in
theorem notification_requires_confirmed_witness :
    treeGet c8Store.notification_outbox c8Cid = none ∧
    treeGet c8Store2.notification_outbox c8Cid =
      some (.stored (mkNotif c8Cid "a@x.io" 1)) ∧
    (mkNotif c8Cid "a@x.io" 1).state = NotificationState.pending ∧
    (mkNotif c8Cid "a@x.io" 1).attempts = 0 :=
  ⟨rfl, rfl,
    (notification_requires_confirmed ⟨10, 1000⟩ c8Store c8Store2
      (WFStore_persist_booking_job emptyStore _ WFStore_empty)
      (Step.forwarderTick c8Store (fun _ => .resp 200 "ok") (fun _ => 0) 1)
      c8Cid (mkNotif c8Cid "a@x.io" 1) rfl rfl).2.2.2.1,
    (notification_requires_confirmed ⟨10, 1000⟩ c8Store c8Store2
      (WFStore_persist_booking_job emptyStore _ WFStore_empty)
      (Step.forwarderTick c8Store (fun _ => .resp 200 "ok") (fun _ => 0) 1)
      c8Cid (mkNotif c8Cid "a@x.io" 1) rfl rfl).2.2.2.2.1⟩

end Broker
